import Mathlib

/-!
# vlbarou/logger: a verification development

A shallow embedding of the zap-backed logging runtime (`zapLogger/zap.go`,
`zapLogger/utils.go`, `zapLogger/definitions.go`), of the factory
(`LoggerFactory.go`, `utils.go`, `definitions.go`, `test_utils.go`) and of the
fallback logger (`default_logger/defaultLogger.go`), followed by the theorems
that settle the statements of the specification against that code.

Conventions of the embedding:

* a Go `string` is a Lean `String`; where the code looks at bytes
  (`strconv.Atoi`) the string is taken through its UTF-8 bytes;
* a Go `any` is a `GoValue`, a tagged value carrying its dynamic type;
* the two write destinations of the tee'd zap core are lists of the entries
  written to them, oldest first;
* behaviour of libraries outside the repository (zap, net/http, strconv,
  errors, multierr) is written down next to the call that uses it, with the
  library function named in the doc comment.
-/

namespace Logger

/-! ## Severity levels (go.uber.org/zap/zapcore, `Level`) -/

/-- The named values of `zapcore.Level`, in increasing order of severity. -/
inductive Level
  | Debug | Info | Warn | Error | DPanic | Panic | Fatal
  deriving DecidableEq, Repr

/-- The numeric value of a `zapcore.Level` (`DebugLevel = -1`, `InfoLevel = 0`, ...). -/
def Level.toInt : Level → Int
  | .Debug => -1
  | .Info => 0
  | .Warn => 1
  | .Error => 2
  | .DPanic => 3
  | .Panic => 4
  | .Fatal => 5

/-- The method `Level.String` of zapcore (named `asString` here, the type `String` being taken): the lower-case name of the level. -/
def Level.asString : Level → String
  | .Debug => "debug"
  | .Info => "info"
  | .Warn => "warn"
  | .Error => "error"
  | .DPanic => "dpanic"
  | .Panic => "panic"
  | .Fatal => "fatal"

/-- The method `Level.Enabled` of zapcore, used by `AtomicLevel.Enabled`:
a record at `lvl` passes a threshold `l` when `lvl >= l`. -/
def Level.Enabled (l lvl : Level) : Bool :=
  decide (l.toInt ≤ lvl.toInt)

/-- The unexported `Level.unmarshalText` of zapcore: the exact-match table of
level names. -/
def Level.unmarshalText (text : String) : Option Level :=
  if text = "debug" ∨ text = "DEBUG" then some .Debug
  else if text = "info" ∨ text = "INFO" ∨ text = "" then some .Info
  else if text = "warn" ∨ text = "WARN" then some .Warn
  else if text = "error" ∨ text = "ERROR" then some .Error
  else if text = "dpanic" ∨ text = "DPANIC" then some .DPanic
  else if text = "panic" ∨ text = "PANIC" then some .Panic
  else if text = "fatal" ∨ text = "FATAL" then some .Fatal
  else none

/-- Functions of the Go standard library whose character tables are not part
of the repository: `bytes.ToLower` (used by `Level.UnmarshalText`) and the
`%q` quoting of `fmt` (used in the text of the parse error). -/
structure GoLib where
  bytesToLower : String → String
  quote : String → String

/-- The ASCII instance of `GoLib`: lower-casing of `A`..`Z`, quoting by
surrounding double quotes. Used to evaluate the handler on concrete requests. -/
def GoLib.ascii : GoLib where
  bytesToLower := fun s => s.map Char.toLower
  quote := fun s => "\"" ++ s ++ "\""

/-- The method `Level.UnmarshalText` of zapcore: the text is looked up as it
is, then lower-cased; the error carries the message of
`fmt.Errorf("unrecognized level: %q", text)`. -/
def Level.UnmarshalText (lib : GoLib) (text : String) : Except String Level :=
  match Level.unmarshalText text with
  | some l => .ok l
  | none =>
    match Level.unmarshalText (lib.bytesToLower text) with
    | some l => .ok l
    | none => .error ("unrecognized level: " ++ lib.quote text)

/-! ## Dynamic values and zap fields -/

/-- A Go value of static type `any`, tagged with its dynamic type. A
`float64` is kept as its bit pattern; `other` stands for every dynamic type
that `toZapFields` does not name (the untyped `nil` included). -/
inductive GoValue
  | str (s : String)
  | int (n : Int)
  | int64 (n : Int)
  | float64 (bits : Nat)
  | bool (b : Bool)
  | other (typeName : String) (repr : String)
  deriving DecidableEq, Repr

/-- The zap constructor that built a field. -/
inductive FieldCtor
  | zapString | zapInt | zapInt64 | zapFloat64 | zapBool | zapAny
  deriving DecidableEq, Repr

/-- A `zap.Field`: its key, the constructor that built it and the value
handed to that constructor. -/
structure Field where
  Key : String
  ctor : FieldCtor
  val : GoValue
  deriving DecidableEq, Repr

/-- The type switch of `toZapFields` (utils.go, lines 18-31): the zap
constructor chosen for a value. -/
def fieldOf (key : String) (val : GoValue) : Field :=
  match val with
  | .str _ => ⟨key, .zapString, val⟩
  | .int _ => ⟨key, .zapInt, val⟩
  | .int64 _ => ⟨key, .zapInt64, val⟩
  | .float64 _ => ⟨key, .zapFloat64, val⟩
  | .bool _ => ⟨key, .zapBool, val⟩
  | .other _ _ => ⟨key, .zapAny, val⟩

/-- The loop of `toZapFields` (utils.go, lines 10-32): `args` is what is left
from index `i` on, `fields` the slice built so far. The loop runs while
`i < len(args)-1`, that is while two elements are left; a key that is not a
string is skipped together with its value. -/
def toZapFieldsLoop : List GoValue → List Field → List Field
  | k :: v :: rest, fields =>
    match k with
    | .str key => toZapFieldsLoop rest (fields ++ [fieldOf key v])
    | _ => toZapFieldsLoop rest fields
  | _, fields => fields

/-- The function `toZapFields` of zapLogger/utils.go. -/
def toZapFields (args : List GoValue) : List Field :=
  toZapFieldsLoop args []

/-! ## The emission core -/

/-- A record written to a sink: level, message and the fields it was
rendered with. -/
structure Entry where
  level : Level
  message : String
  fields : List Field
  deriving DecidableEq, Repr

/-- A Go channel of element type `struct{}`: its capacity, the number of
values waiting in its buffer, and whether it has been closed. -/
structure Chan where
  cap : Nat
  buffered : Nat
  closed : Bool
  deriving DecidableEq, Repr

/-- The statement `make(chan struct{}, n)`. -/
def Chan.make (n : Nat) : Chan := ⟨n, 0, false⟩

/-- A receive `<-ch`: a buffered value is taken when there is one; on an
empty closed channel the receive yields the zero value and leaves the channel
as it is; on an empty open channel it cannot proceed (`none`). -/
def Chan.recv (ch : Chan) : Option Chan :=
  if 0 < ch.buffered then some { ch with buffered := ch.buffered - 1 }
  else if ch.closed then some ch
  else none

/-- The statement `close(ch)`: closing a closed channel panics (`none`). -/
def Chan.close (ch : Chan) : Option Chan :=
  if ch.closed then none else some { ch with closed := true }

/-- The struct `LoggerImpl` (zap.go, lines 20-33). `ctxDone` says whether
`ctx` has been cancelled, `wg` is the counter of the wait group. In place of
`mainLogger` stand the `atomicLevel` shared by both cores of the tee and what
has been written to the console core (`os.Stdout`) and to the file core;
`mainLogger` and `internalLogger` are built over this one tee (zap.go, lines
288-306). -/
structure LoggerImpl where
  maxSizeMB : Int
  maxBackups : Int
  maxAge : Int
  logServerPort : String
  logRotationEnabled : Bool
  logFile : String
  doneCh : Chan
  ctxDone : Bool
  atomicLevel : Level
  wg : Nat
  console : List Entry
  file : List Entry
  deriving DecidableEq, Repr

/-- The methods `Logger.Debug/Info/Warn/Error` of zap over the tee built by
`createLogger`: each of the two cores checks the entry against the shared
`atomicLevel` (`ioCore.Check`) and, when enabled, writes it once
(`ioCore.Write`). -/
def zapLog (logger : LoggerImpl) (lvl : Level) (message : String)
    (fields : List Field) : LoggerImpl :=
  let ent : Entry := ⟨lvl, message, fields⟩
  let console := if logger.atomicLevel.Enabled lvl then logger.console ++ [ent] else logger.console
  let file := if logger.atomicLevel.Enabled lvl then logger.file ++ [ent] else logger.file
  { logger with console := console, file := file }

/-- The method `LoggerImpl.Info` (zap.go, lines 231-234). -/
def LoggerImpl.Info (logger : LoggerImpl) (message : String) (args : List GoValue) : LoggerImpl :=
  let fields := toZapFields args
  zapLog logger .Info message fields

/-- The method `LoggerImpl.Debug` (zap.go, lines 236-239). -/
def LoggerImpl.Debug (logger : LoggerImpl) (message : String) (args : List GoValue) : LoggerImpl :=
  let fields := toZapFields args
  zapLog logger .Debug message fields

/-- The method `LoggerImpl.Error` (zap.go, lines 241-244). -/
def LoggerImpl.Error (logger : LoggerImpl) (message : String) (args : List GoValue) : LoggerImpl :=
  let fields := toZapFields args
  zapLog logger .Error message fields

/-- The method `LoggerImpl.Warn` (zap.go, lines 246-249). -/
def LoggerImpl.Warn (logger : LoggerImpl) (message : String) (args : List GoValue) : LoggerImpl :=
  let fields := toZapFields args
  zapLog logger .Warn message fields

/-- The emission method of `LoggerImpl` for one of the four levels it
exposes; no method exists for the other levels. -/
def LoggerImpl.emit (logger : LoggerImpl) (lvl : Level) (message : String)
    (args : List GoValue) : Option LoggerImpl :=
  match lvl with
  | .Debug => some (logger.Debug message args)
  | .Info => some (logger.Info message args)
  | .Warn => some (logger.Warn message args)
  | .Error => some (logger.Error message args)
  | _ => none

/-! ## The control-plane handler -/

/-- The parsed query of a request (`url.Values`): each key with its values. -/
abbrev Values := List (String × List String)

/-- The method `url.Values.Get`: the first value of the key, or the empty
string when the key is absent or has no value. -/
def Values.Get (v : Values) (key : String) : String :=
  match v.lookup key with
  | some (x :: _) => x
  | _ => ""

/-- An `http.ResponseWriter` as the handler uses it: whether the header has
been written, the status, and the body written so far. -/
structure ResponseWriter where
  wroteHeader : Bool
  status : Nat
  body : String
  deriving DecidableEq, Repr

/-- The writer the server hands to a handler. -/
def ResponseWriter.fresh : ResponseWriter := ⟨false, 0, ""⟩

/-- The method `ResponseWriter.WriteHeader`: only the first call counts. -/
def ResponseWriter.WriteHeader (w : ResponseWriter) (code : Nat) : ResponseWriter :=
  if w.wroteHeader then w else { w with wroteHeader := true, status := code }

/-- The method `ResponseWriter.Write`: an implicit `WriteHeader(200)` when no
header has been written, then the bytes. -/
def ResponseWriter.Write (w : ResponseWriter) (s : String) : ResponseWriter :=
  let w1 := w.WriteHeader 200
  { w1 with body := w1.body ++ s }

/-- The function `http.Error`: the status, then the message and a newline. -/
def httpError (w : ResponseWriter) (error : String) (code : Nat) : ResponseWriter :=
  (w.WriteHeader code).Write (error ++ "\n")

/-- The constant `http.StatusBadRequest`. -/
def StatusBadRequest : Nat := 400

/-- The method `LoggerImpl.logLevelHandler` (zap.go, lines 213-229); `query`
is `r.URL.Query()`. -/
def logLevelHandler (lib : GoLib) (logger : LoggerImpl) (w : ResponseWriter)
    (query : Values) : LoggerImpl × ResponseWriter :=
  let level := Values.Get query "level"
  if level = "" then
    (logger, httpError w "level is required" StatusBadRequest)
  else
    match Level.UnmarshalText lib level with
    | .error err =>
      (logger, httpError w ("invalid level: " ++ err) StatusBadRequest)
    | .ok newLevel =>
      let logger1 := { logger with atomicLevel := newLevel }
      let logger2 := zapLog logger1 .Error "Log level changed"
        [⟨"new_level", .zapString, .str newLevel.asString⟩]
      (logger2, w.Write ("Log level set to " ++ newLevel.asString ++ "\n"))

/-! ## Flushing: `Sync` and `Shutdown` -/

/-- An error returned by the `Sync` of one write destination: an
`*os.PathError` with its operation, path and cause, or an error of another
type. -/
inductive GoError
  | pathError (op : String) (path : String) (cause : String)
  | other (msg : String)
  deriving DecidableEq, Repr

/-- An `error` value made of the errors of the destinations: `[]` is `nil`,
one element is that error itself, more are the errors held by one multierr
error, in order. -/
abbrev SyncError := List GoError

/-- What the two destinations answer to one flush of the tee: the result of
`os.Stdout.Sync()` and the result of the `Sync` of the log file handle. -/
structure FlushOutcome where
  console : Option GoError
  file : Option GoError
  deriving DecidableEq, Repr

/-- The function `multierr.Append` on a combined error and the result of one
more destination. -/
def multierrAppend (left : SyncError) (right : Option GoError) : SyncError :=
  match right with
  | none => left
  | some e => left ++ [e]

/-- The method `zap.Logger.Sync` over the tee of `createLogger`
(`multiCore.Sync`): the console core is flushed, then the file core, and the
errors are combined with `multierr.Append`. With rotation enabled the file
destination is a lumberjack writer, which has no `Sync`: the wrapper that
`zapcore.AddSync` puts around it returns nil. -/
def zapSync (logger : LoggerImpl) (o : FlushOutcome) : SyncError :=
  let err := multierrAppend [] o.console
  multierrAppend err (if logger.logRotationEnabled then none else o.file)

/-- The call `errors.As(err, &pathErr)` for a target of type `*os.PathError`:
the first path error found in `err`, the errors of a combined error being
tried in order. -/
def errorsAsPathError : SyncError → Option (String × String × String)
  | [] => none
  | .pathError op path cause :: _ => some (op, path, cause)
  | .other _ :: rest => errorsAsPathError rest

/-- The variable `isIgnorableSyncError` (zap.go, lines 91-94). -/
def isIgnorableSyncError (err : SyncError) : Bool :=
  match errorsAsPathError err with
  | some (_, path, _) => path == "/dev/stdout"
  | none => false

/-- The function `errors.Join`: nil (`none`) when every argument is nil,
otherwise the non-nil arguments in order. -/
def errorsJoin (errs : List SyncError) : Option (List SyncError) :=
  match errs.filter (fun e => !e.isEmpty) with
  | [] => none
  | es => some es

/-- Lines 111-119 of `LoggerImpl.Shutdown`: `internalLogger` is flushed, then
`mainLogger`; an error that is not ignorable is kept; the two are joined.
`oi` and `om` are what the destinations answer to the first and to the second
flush. -/
def shutdownFlush (logger : LoggerImpl) (oi om : FlushOutcome) : Option (List SyncError) :=
  let e1 := zapSync logger oi
  let err1 : SyncError := if !e1.isEmpty && !isIgnorableSyncError e1 then e1 else []
  let e2 := zapSync logger om
  let err2 : SyncError := if !e2.isEmpty && !isIgnorableSyncError e2 then e2 else []
  errorsJoin [err1, err2]

/-- What a Go function without a result hands to its caller. -/
abbrev NoResult := Unit

/-- The method `LoggerImpl.Sync` (zap.go, lines 96-99): `mainLogger` is
flushed, then `internalLogger`; both results are dropped. The first component
lists the flushes performed with the error each returned, the second is what
the caller gets. `om` and `oi` are what the destinations answer to the first
and to the second flush. -/
def LoggerImpl.Sync (logger : LoggerImpl) (om oi : FlushOutcome) :
    List (String × SyncError) × NoResult :=
  let r1 := zapSync logger om
  let r2 := zapSync logger oi
  ([("mainLogger", r1), ("internalLogger", r2)], ())

/-- The method `LoggerImpl.IsShutdown` (zap.go, lines 122-129): a `select`
whose only case is a receive from `doneCh`, with a `default`. The result
comes with the logger as the receive leaves it. -/
def LoggerImpl.IsShutdown (logger : LoggerImpl) : Bool × LoggerImpl :=
  match logger.doneCh.recv with
  | some ch => (true, { logger with doneCh := ch })
  | none => (false, logger)

/-! ## Construction and the lifecycle (zapLogger/definitions.go, zap.go) -/

/-- The constant `MaxSizeMB` of zapLogger/definitions.go. -/
def MaxSizeMB : Int := 10

/-- The constant `MaxBackups` of zapLogger/definitions.go. -/
def MaxBackups : Int := 3

/-- The constant `MaxAge` of zapLogger/definitions.go. -/
def MaxAge : Int := 7

/-- The constant `LogFile` of zapLogger/definitions.go. -/
def LogFile : String := "/tmp/logs/app.log"

/-- The constant `LoggerServerPort` of zapLogger/definitions.go. -/
def LoggerServerPort : String := "8081"

/-- The function `New` (zap.go, lines 35-52). -/
def New : LoggerImpl where
  maxAge := MaxAge
  maxBackups := MaxBackups
  maxSizeMB := MaxSizeMB
  logServerPort := LoggerServerPort
  logFile := LogFile
  logRotationEnabled := false
  atomicLevel := .Info
  ctxDone := false
  doneCh := Chan.make 1
  wg := 0
  console := []
  file := []

/-- The method `WithLogRotation` (zap.go, lines 54-57). -/
def LoggerImpl.WithLogRotation (logger : LoggerImpl) (r : Bool) : LoggerImpl :=
  { logger with logRotationEnabled := r }

/-- The method `WithLogfile` (zap.go, lines 59-62). -/
def LoggerImpl.WithLogfile (logger : LoggerImpl) (l : String) : LoggerImpl :=
  { logger with logFile := l }

/-- The method `WithMaxSizeMB` (zap.go, lines 64-67). -/
def LoggerImpl.WithMaxSizeMB (logger : LoggerImpl) (m : Int) : LoggerImpl :=
  { logger with maxSizeMB := m }

/-- The method `WithMaxBackups` (zap.go, lines 69-72). -/
def LoggerImpl.WithMaxBackups (logger : LoggerImpl) (m : Int) : LoggerImpl :=
  { logger with maxBackups := m }

/-- The method `WithMaxAge` (zap.go, lines 74-77). -/
def LoggerImpl.WithMaxAge (logger : LoggerImpl) (m : Int) : LoggerImpl :=
  { logger with maxAge := m }

/-- The method `WithPort` (zap.go, lines 79-82). -/
def LoggerImpl.WithPort (logger : LoggerImpl) (port : String) : LoggerImpl :=
  { logger with logServerPort := port }

/-- The method `createLogger` (zap.go, lines 251-309). `canOpen` says for
which paths `OpenOrCreateFile` succeeds; a failure panics (`Except.error`).
With rotation enabled no file is opened. The level is set to Info. -/
def LoggerImpl.createLogger (canOpen : String → Bool) (logger : LoggerImpl) :
    Except String LoggerImpl :=
  if logger.logRotationEnabled then
    .ok { logger with atomicLevel := .Info }
  else if canOpen logger.logFile then
    .ok { logger with atomicLevel := .Info }
  else
    .error "failed to open log file"

/-- Where the goroutine of zap.go, lines 191-202 stands: waiting on
`ctx.Done()`, inside `server.Shutdown`, or finished. -/
inductive WaiterPc
  | waiting | shuttingDown | finished
  deriving DecidableEq, Repr

/-- A started logger with the goroutines of `Start` and a caller of
`Shutdown`. `serverRunning`: the goroutine of lines 183-188 has not returned;
`serverClosing`: `server.Shutdown` has been called; `closerRunning`: the
goroutine of lines 205-208 has not returned; `inShutdown`: a call of
`Shutdown` has passed line 105 and not returned; `closes` counts the
executions of `close(logger.doneCh)`; `returned` holds the results of the
calls of `Shutdown` that have returned, oldest first. -/
structure System where
  logger : LoggerImpl
  serverRunning : Bool
  serverClosing : Bool
  waiter : WaiterPc
  closerRunning : Bool
  inShutdown : Bool
  closes : Nat
  returned : List (Option (List SyncError))
  deriving DecidableEq, Repr

/-- The method `LoggerImpl.Start` (zap.go, lines 169-211): the logger is
created, the start line is logged on `internalLogger`, the wait group is
raised once for each of the two goroutines of the server, and the three
goroutines are started. -/
def LoggerImpl.Start (canOpen : String → Bool) (logger : LoggerImpl) : Except String System :=
  match logger.createLogger canOpen with
  | .error e => .error e
  | .ok l1 =>
    let l2 := zapLog l1 .Info ("Starting log server on :" ++ l1.logServerPort) []
    let l3 := { l2 with wg := l2.wg + 1 }
    let l4 := { l3 with wg := l3.wg + 1 }
    .ok { logger := l4, serverRunning := true, serverClosing := false, waiter := .waiting,
          closerRunning := true, inShutdown := false, closes := 0, returned := [] }

/-- The steps of a started logger.
* `serverExit failed`: `server.ListenAndServe()` returns (lines 185-187), with
  `http.ErrServerClosed` once `server.Shutdown` has been called, or with
  another error (`failed`), which is logged; then `wg.Done()`.
* `waiterWake`: `<-logger.ctx.Done()` proceeds (line 193), the line of 195 is
  logged and `server.Shutdown` is called.
* `waiterExit failed`: `server.Shutdown` returns (lines 199-201), its error
  is logged; then `wg.Done()`.
* `closerClose`: `logger.wg.Wait()` returns and `doneCh` is closed (lines
  206-207).
* `shutdownCall`: a caller enters `Shutdown` and cancels (line 105).
* `shutdownReturn oi om`: that caller receives from `doneCh` (line 108),
  flushes and returns (lines 111-119).
* `poll`: a call of `IsShutdown`. -/
inductive Event
  | serverExit (failed : Bool)
  | waiterWake
  | waiterExit (failed : Bool)
  | closerClose
  | shutdownCall
  | shutdownReturn (oi om : FlushOutcome)
  | poll
  deriving DecidableEq, Repr

/-- Why a step does not yield a next state: it cannot proceed in this state
(it is not at that point of its code, or it waits), or it panics. -/
inductive Halt
  | blocked | panicked
  deriving DecidableEq, Repr

/-- The argument `zap.Error(err)` that lines 186 and 200 hand to
`logger.Error` as a single variadic value. -/
def zapErrorArg : GoValue := .other "zapcore.Field" "error"

/-- One step of the started logger. -/
def step (s : System) : Event → Except Halt System
  | .serverExit failed =>
    if s.serverRunning && (failed || s.serverClosing) then
      let l1 := if failed then s.logger.Error "HTTP server failed" [zapErrorArg] else s.logger
      if l1.wg = 0 then .error .panicked
      else .ok { s with logger := { l1 with wg := l1.wg - 1 }, serverRunning := false }
    else .error .blocked
  | .waiterWake =>
    if s.waiter = .waiting && s.logger.ctxDone then
      .ok { s with logger := zapLog s.logger .Info "Shutting down log server..." [],
                   serverClosing := true, waiter := .shuttingDown }
    else .error .blocked
  | .waiterExit failed =>
    if s.waiter = .shuttingDown then
      let l1 := if failed then s.logger.Error "Server shutdown failed" [zapErrorArg] else s.logger
      if l1.wg = 0 then .error .panicked
      else .ok { s with logger := { l1 with wg := l1.wg - 1 }, waiter := .finished }
    else .error .blocked
  | .closerClose =>
    if s.closerRunning && s.logger.wg = 0 then
      match s.logger.doneCh.close with
      | none => .error .panicked
      | some ch => .ok { s with logger := { s.logger with doneCh := ch },
                                closerRunning := false, closes := s.closes + 1 }
    else .error .blocked
  | .shutdownCall =>
    if s.inShutdown then .error .blocked
    else .ok { s with logger := { s.logger with ctxDone := true }, inShutdown := true }
  | .shutdownReturn oi om =>
    if s.inShutdown then
      match s.logger.doneCh.recv with
      | none => .error .blocked
      | some ch =>
        let l1 := { s.logger with doneCh := ch }
        .ok { s with logger := l1, inShutdown := false,
                     returned := s.returned ++ [shutdownFlush l1 oi om] }
    else .error .blocked
  | .poll => .ok { s with logger := s.logger.IsShutdown.2 }

/-- A run: the steps of a list of events, one after the other. -/
def run (s : System) : List Event → Except Halt System
  | [] => .ok s
  | e :: es =>
    match step s e with
    | .ok s1 => run s1 es
    | .error h => .error h

/-- What holds of a logger as `New` returns it and no `With...` setter
changes: `doneCh` is a fresh channel of capacity 1, the context is not
cancelled and the wait group is at zero. -/
def LoggerImpl.Unstarted (logger : LoggerImpl) : Prop :=
  logger.doneCh = Chan.make 1 ∧ logger.ctxDone = false ∧ logger.wg = 0

/-- The invariant of a started logger: nothing is ever sent on `doneCh`; the
goroutine that closes `doneCh` has returned exactly when the channel is
closed, and `closes` counts that one execution; the wait group counts the two
goroutines of the server that have not returned; the goroutine waiting on
the context has moved on only after a cancellation; `Shutdown` has returned
only after `doneCh` was closed. -/
def System.Inv (s : System) : Prop :=
  s.logger.doneCh.buffered = 0 ∧
  s.closerRunning = !s.logger.doneCh.closed ∧
  s.closes = (if s.logger.doneCh.closed then 1 else 0) ∧
  s.logger.wg = (if s.serverRunning then 1 else 0) + (if s.waiter = .finished then 0 else 1) ∧
  (s.logger.doneCh.closed = true → s.logger.wg = 0) ∧
  (s.waiter ≠ .waiting → s.logger.ctxDone = true) ∧
  (s.returned ≠ [] → s.logger.doneCh.closed = true)

/-! ## Configuration (definitions.go, utils.go) and `strconv.Atoi` -/

/-- The UTF-8 encoding of a character, as numbers below 256. -/
def utf8Bytes (c : Char) : List Nat :=
  let v := c.toNat
  if v < 0x80 then [v]
  else if v < 0x800 then [0xC0 + v / 0x40, 0x80 + v % 0x40]
  else if v < 0x10000 then [0xE0 + v / 0x1000, 0x80 + v / 0x40 % 0x40, 0x80 + v % 0x40]
  else [0xF0 + v / 0x40000, 0x80 + v / 0x1000 % 0x40, 0x80 + v / 0x40 % 0x40, 0x80 + v % 0x40]

/-- The bytes of a Go string. -/
def goBytes (s : String) : List Nat :=
  (s.data.map utf8Bytes).flatten

/-- The two causes of a `*strconv.NumError`: `strconv.ErrSyntax` and
`strconv.ErrRange`. -/
inductive NumErr
  | ErrSyntax | ErrRange
  deriving DecidableEq, Repr

/-- The constant `strconv.IntSize` on a 64-bit platform. -/
def intSize : Nat := 64

/-- The constant `maxUint64` of strconv. -/
def maxUint64 : Nat := 2 ^ 64 - 1

/-- The helper `lower` of strconv: `c | ('x' - 'X')`. -/
def lower (c : Nat) : Nat := c ||| 0x20

/-- The loop of `strconv.ParseUint(s, 10, 0)` over the bytes left, `n` being
the number read so far (a `uint64`, so sums are taken modulo `2^64`). The
first overflow ends the loop with `maxVal` and a range error, whatever
follows; a byte that is not a digit of base 10 ends it with 0 and a syntax
error. -/
def parseUintLoop : List Nat → Nat → Nat × Option NumErr
  | [], n => (n, none)
  | c :: rest, n =>
    if 48 ≤ c ∧ c ≤ 57 then
      let d := c - 48
      if n ≥ maxUint64 / 10 + 1 then (2 ^ intSize - 1, some .ErrRange)
      else
        let n10 := n * 10 % 2 ^ 64
        let n1 := (n10 + d) % 2 ^ 64
        if n1 < n10 ∨ n1 > 2 ^ intSize - 1 then (2 ^ intSize - 1, some .ErrRange)
        else parseUintLoop rest n1
    else if 97 ≤ lower c ∧ lower c ≤ 122 then
      (0, some .ErrSyntax)
    else
      (0, some .ErrSyntax)

/-- The function `strconv.ParseUint(s, 10, 0)`. -/
def ParseUint (s : List Nat) : Nat × Option NumErr :=
  if s = [] then (0, some .ErrSyntax) else parseUintLoop s 0

/-- The function `strconv.ParseInt(s, 10, 0)`: the sign is taken off, the
rest is read by `ParseUint`; on a range error, or when the number read does
not fit, the result is the largest magnitude of that sign with a range
error. -/
def ParseInt (s : List Nat) : Int × Option NumErr :=
  if s = [] then (0, some .ErrSyntax)
  else
    let neg := s.head? = some 45
    let s1 := if s.head? = some 43 ∨ s.head? = some 45 then s.tail else s
    let r := ParseUint s1
    if r.2 = some .ErrSyntax then (0, some .ErrSyntax)
    else
      let cutoff : Nat := 2 ^ (intSize - 1)
      if !neg ∧ r.1 ≥ cutoff then ((cutoff : Int) - 1, some .ErrRange)
      else if neg ∧ r.1 > cutoff then (-(cutoff : Int), some .ErrRange)
      else (if neg then -(r.1 : Int) else (r.1 : Int), none)

/-- The loop of the fast path of `strconv.Atoi`: `ch -= '0'` on a byte, a
syntax error (`none`) when the result is above 9. -/
def atoiFastLoop : List Nat → Int → Option Int
  | [], n => some n
  | ch :: rest, n =>
    let ch1 := (ch + 256 - 48) % 256
    if ch1 > 9 then none else atoiFastLoop rest (n * 10 + ch1)

/-- The function `strconv.Atoi` on the bytes of its argument: the fast path
for strings of 1 to 18 bytes, `ParseInt(s, 10, 0)` for the others. -/
def Atoi (s : List Nat) : Int × Option NumErr :=
  if 0 < s.length ∧ s.length < 19 then
    let signed := s.head? = some 45 ∨ s.head? = some 43
    let s1 := if signed then s.tail else s
    if signed ∧ s1.length < 1 then (0, some .ErrSyntax)
    else
      match atoiFastLoop s1 0 with
      | none => (0, some .ErrSyntax)
      | some n => (if s.head? = some 45 then -n else n, none)
  else
    ParseInt s

/-- The number written by a list of decimal digits, given as the bytes
`'0'`..`'9'`, most significant first: what `strconv.Atoi` is to return for
decimal text. -/
def decimalValue (ds : List Nat) : Int :=
  ds.foldl (fun n d => n * 10 + ((d : Int) - 48)) 0

/-- The function `toInt` of utils.go (lines 37-40): the number returned by
`strconv.Atoi`, its error dropped. -/
def toInt (s : String) : Int :=
  (Atoi (goBytes s)).1

/-- The struct `Config` of definitions.go. -/
structure Config where
  MaxSizeMB : String
  MaxBackups : String
  MaxAge : String
  LogFile : String
  LogRotation : Bool
  deriving DecidableEq, Repr

/-- Lines 10-31 of `startLogger` (utils.go): the logger of `New`, with the
setters applied for the fields of `config[0]` that are not empty. -/
def configure (config : List Config) : LoggerImpl :=
  let l := New
  match config with
  | [] => l
  | c :: _ =>
    let l := if c.LogFile ≠ "" then l.WithLogfile c.LogFile else l
    let l := if c.MaxSizeMB ≠ "" then l.WithMaxSizeMB (toInt c.MaxSizeMB) else l
    let l := if c.MaxBackups ≠ "" then l.WithMaxBackups (toInt c.MaxBackups) else l
    let l := if c.MaxAge ≠ "" then l.WithMaxAge (toInt c.MaxAge) else l
    l.WithLogRotation c.LogRotation

/-- The function `startLogger` of utils.go (lines 9-35). -/
def startLogger (canOpen : String → Bool) (config : List Config) : Except String System :=
  (configure config).Start canOpen

/-- The result of the run of `events` on the logger started by
`startLogger canOpen config`: the values returned by the calls of `Shutdown`,
or `none` when the start panics or the run cannot proceed. -/
def shutdownResults (canOpen : String → Bool) (config : List Config) (events : List Event) :
    Option (List (Option (List SyncError))) :=
  match startLogger canOpen config with
  | .error _ => none
  | .ok s0 =>
    match run s0 events with
    | .error _ => none
    | .ok s => some s.returned

/-- The system that `New().Start()` yields when the log file can be opened:
the level at Info, the start line written to both sinks, the wait group at
two, the three goroutines running. -/
def startedDefault : System where
  logger := { zapLog New .Info ("Starting log server on :" ++ LoggerServerPort) [] with wg := 2 }
  serverRunning := true
  serverClosing := false
  waiter := .waiting
  closerRunning := true
  inShutdown := false
  closes := 0
  returned := []

/-- A whole orderly shutdown: `Shutdown` is called and cancels, the waiting
goroutine shuts the server down, the server goroutine returns, the waiting
goroutine returns, `doneCh` is closed, and `Shutdown` flushes (with the
answers `oi` and `om` of the destinations) and returns. -/
def orderlyShutdown (oi om : FlushOutcome) : List Event :=
  [.shutdownCall, .waiterWake, .serverExit false, .waiterExit false, .closerClose,
   .shutdownReturn oi om]

/-! ## The fallback logger (default_logger/defaultLogger.go) -/

/-- The verb `%v` of `fmt` on the values that `GoValue` tells apart; for the
other dynamic types the text recorded with the value. Used to evaluate
`createLog` on concrete calls; `createLog` itself takes the rendering of `%v`
as a parameter. -/
def formatVPlain : GoValue → String
  | .str s => s
  | .int n => toString n
  | .int64 n => toString n
  | .float64 bits => toString bits
  | .bool b => if b then "true" else "false"
  | .other _ repr => repr

/-- The loop of `createLog` (defaultLogger.go, lines 59-63), entered when
`len(args)` is even: `args` is what is left from index `i` on, `logMsg` the
line built so far; each pair appends `fmt.Sprintf(" %s=%s", key, val)` with
key and value rendered by `%v`. -/
def createLogLoop (formatV : GoValue → String) : List GoValue → String → String
  | k :: v :: rest, logMsg =>
    let key := formatV k
    let val := formatV v
    createLogLoop formatV rest (logMsg ++ (" " ++ key ++ "=" ++ val))
  | _, logMsg => logMsg

/-- The function `createLog` of defaultLogger.go (lines 50-64). `timestamp`
is `time.Now().Format(time.RFC3339)`, `lib.quote` renders `%q` and `formatV`
renders `%v`. -/
def createLog (lib : GoLib) (formatV : GoValue → String) (timestamp : String)
    (msg : String) (level : String) (args : List GoValue) : String :=
  let logMsg := "level=" ++ level ++ " time=" ++ timestamp ++ " msg=" ++ lib.quote msg
  if args.length % 2 ≠ 0 then
    logMsg ++ "[invalid key-value pairs]"
  else
    createLogLoop formatV args logMsg

/-- Strings written one after the other, in order. -/
def concatAll : List String → String
  | [] => ""
  | t :: rest => t ++ concatAll rest

/-! ## The factory (LoggerFactory.go, test_utils.go) -/

/-- The type `LoggerType` of definitions.go: an `int`. -/
abbrev LoggerType := Int

/-- The constant `Zap` of definitions.go (`iota`, so 0). -/
def Zap : LoggerType := 0

/-- The struct `DefaultLogger` of defaultLogger.go, as the lines it has
printed. -/
structure DefaultLogger where
  lines : List String
  deriving DecidableEq, Repr

/-- The function `New` of defaultLogger.go. -/
def DefaultLogger.New : DefaultLogger := ⟨[]⟩

/-- A value of the interface type `Logger` as the factory holds it: nil, a
`*zapLogger.LoggerImpl` that `Start` has not set up (left behind when `Start`
panics), a started one, or a `*default_logger.DefaultLogger`. -/
inductive LoggerValue
  | nil
  | zapUnstarted (l : LoggerImpl)
  | zap (s : System)
  | fallback (d : DefaultLogger)
  deriving DecidableEq, Repr

/-- The package variables of LoggerFactory.go: `once` (whether it is done),
`loggerInstance` and `initError`; `inits` counts the executions of the
function handed to `once.Do`. -/
structure Factory where
  onceDone : Bool
  loggerInstance : LoggerValue
  initError : Option String
  inits : Nat
  deriving DecidableEq, Repr

/-- The package variables when the program starts. -/
def Factory.initial : Factory := ⟨false, .nil, none, 0⟩

/-- The function `GetLogger` of LoggerFactory.go (lines 10-28), with the
variables it leaves and what it returns (`Except.error` for a panic).
`once.Do` runs the function when `once` is not done and marks it done, also
when the function panics. In the Zap case `startLogger` has assigned the
logger of `New` to `loggerInstance` and applied the setters before `Start`
can panic. -/
def GetLogger (canOpen : String → Bool) (f : Factory) (loggerType : LoggerType)
    (config : List Config) : Factory × Except String (LoggerValue × Option String) :=
  if f.onceDone then
    (f, .ok (f.loggerInstance, f.initError))
  else
    let f1 := { f with onceDone := true, inits := f.inits + 1 }
    if loggerType = Zap then
      match startLogger canOpen config with
      | .ok s =>
        let f2 := { f1 with loggerInstance := .zap s }
        (f2, .ok (f2.loggerInstance, f2.initError))
      | .error e =>
        ({ f1 with loggerInstance := .zapUnstarted (configure config) }, .error e)
    else
      let f2 := { f1 with loggerInstance := .fallback DefaultLogger.New,
                          initError := some "required logger not found. Default logger initialized" }
      (f2, .ok (f2.loggerInstance, f2.initError))

/-- The function `ResetLogger` of test_utils.go (lines 58-64). -/
def ResetLogger (f : Factory) : Factory :=
  { f with onceDone := false, loggerInstance := .nil, initError := none }

/-- One call of `GetLogger`: what opening a file answers at that time, and
the arguments. -/
structure Call where
  canOpen : String → Bool
  loggerType : LoggerType
  config : List Config

/-- A sequence of calls of `GetLogger`, one after the other: the variables at
the end and what each call returned. -/
def getLoggers (f : Factory) :
    List Call → Factory × List (Except String (LoggerValue × Option String))
  | [] => (f, [])
  | c :: rest =>
    let r := GetLogger c.canOpen f c.loggerType c.config
    let rs := getLoggers r.1 rest
    (rs.1, r.2 :: rs.2)

/-! ## Theorems: the control-plane handler -/

theorem httpError_fresh (msg : String) (code : Nat) :
    httpError ResponseWriter.fresh msg code = ⟨true, code, "" ++ (msg ++ "\n")⟩ := by
  simp [httpError, ResponseWriter.fresh, ResponseWriter.WriteHeader, ResponseWriter.Write]

theorem write_fresh (body : String) :
    ResponseWriter.fresh.Write body = ⟨true, 200, "" ++ body⟩ := by
  simp [ResponseWriter.fresh, ResponseWriter.WriteHeader, ResponseWriter.Write]

theorem logLevelHandler_missing (lib : GoLib) (logger : LoggerImpl) (w : ResponseWriter)
    (query : Values) (h : Values.Get query "level" = "") :
    logLevelHandler lib logger w query =
      (logger, httpError w "level is required" StatusBadRequest) := by
  simp [logLevelHandler, h]

theorem logLevelHandler_invalid (lib : GoLib) (logger : LoggerImpl) (w : ResponseWriter)
    (query : Values) (err : String) (h : Values.Get query "level" ≠ "")
    (hp : Level.UnmarshalText lib (Values.Get query "level") = .error err) :
    logLevelHandler lib logger w query =
      (logger, httpError w ("invalid level: " ++ err) StatusBadRequest) := by
  simp [logLevelHandler, h, hp]

theorem logLevelHandler_valid (lib : GoLib) (logger : LoggerImpl) (w : ResponseWriter)
    (query : Values) (newLevel : Level) (h : Values.Get query "level" ≠ "")
    (hp : Level.UnmarshalText lib (Values.Get query "level") = .ok newLevel) :
    logLevelHandler lib logger w query =
      (zapLog { logger with atomicLevel := newLevel } .Error "Log level changed"
          [⟨"new_level", .zapString, .str newLevel.asString⟩],
        w.Write ("Log level set to " ++ newLevel.asString ++ "\n")) := by
  simp [logLevelHandler, h, hp]

/-- C1: for every request handled by `logLevelHandler`, the status is 400
exactly when the `level` parameter is missing or empty or its text does not
parse as a level, and then the logger (its level included) is left as it was;
in every other case the status is 200, the body is
"Log level set to <level>\n" for the parsed level, and the filter holds that
level. -/
theorem logLevelHandler_status (lib : GoLib) (logger : LoggerImpl) (query : Values) :
    ((logLevelHandler lib logger ResponseWriter.fresh query).2.status = 400 ↔
      (Values.Get query "level" = "" ∨
        ∃ err, Level.UnmarshalText lib (Values.Get query "level") = .error err)) ∧
    ((logLevelHandler lib logger ResponseWriter.fresh query).2.status = 400 →
      (logLevelHandler lib logger ResponseWriter.fresh query).1 = logger) ∧
    ((logLevelHandler lib logger ResponseWriter.fresh query).2.status ≠ 400 →
      ∃ newLevel, Level.UnmarshalText lib (Values.Get query "level") = .ok newLevel ∧
        (logLevelHandler lib logger ResponseWriter.fresh query).2.status = 200 ∧
        (logLevelHandler lib logger ResponseWriter.fresh query).2.body =
          "Log level set to " ++ newLevel.asString ++ "\n" ∧
        (logLevelHandler lib logger ResponseWriter.fresh query).1.atomicLevel = newLevel) := by
  by_cases h : Values.Get query "level" = ""
  · simp [logLevelHandler_missing lib logger _ query h, httpError_fresh, StatusBadRequest, h]
  · cases hp : Level.UnmarshalText lib (Values.Get query "level") with
    | error err =>
      simp [logLevelHandler_invalid lib logger _ query err h hp, httpError_fresh,
        StatusBadRequest, h]
    | ok newLevel =>
      simp [logLevelHandler_valid lib logger _ query newLevel h hp, write_fresh, zapLog, h]

/-- C1, at concrete requests: `?level=debug` on the logger of `New` gives 200
and the confirmation, a request without `level` gives 400 and leaves the
logger as it was. -/
theorem logLevelHandler_status_witness :
    (logLevelHandler GoLib.ascii New ResponseWriter.fresh [("level", ["debug"])]).2.status = 200 ∧
    (logLevelHandler GoLib.ascii New ResponseWriter.fresh [("level", ["debug"])]).2.body =
      "Log level set to debug\n" ∧
    (logLevelHandler GoLib.ascii New ResponseWriter.fresh []).2.status = 400 ∧
    (logLevelHandler GoLib.ascii New ResponseWriter.fresh []).1 = New := by
  have h1 := logLevelHandler_status GoLib.ascii New [("level", ["debug"])]
  have h2 := logLevelHandler_status GoLib.ascii New []
  have e1 : (logLevelHandler GoLib.ascii New ResponseWriter.fresh [("level", ["debug"])]).2.status
      = 200 := by decide
  have e2 : (logLevelHandler GoLib.ascii New ResponseWriter.fresh []).2.status = 400 := by decide
  refine ⟨e1, by decide, e2, h2.2.1 e2⟩

/-! ## Theorems: the severity filter and emission -/

theorem UnmarshalText_of_name (lib : GoLib) (T : Level)
    (hT : T = .Debug ∨ T = .Info ∨ T = .Warn ∨ T = .Error) :
    T.asString ≠ "" ∧ Level.UnmarshalText lib T.asString = .ok T := by
  rcases hT with h | h | h | h <;> subst h <;> refine ⟨by decide, ?_⟩ <;>
    simp [Level.UnmarshalText, Level.unmarshalText, Level.asString]

theorem emit_enabled (logger : LoggerImpl) (L : Level) (message : String) (args : List GoValue)
    (hL : L = .Debug ∨ L = .Info ∨ L = .Warn ∨ L = .Error) :
    logger.emit L message args = some (zapLog logger L message (toZapFields args)) := by
  rcases hL with h | h | h | h <;> subst h <;>
    simp [LoggerImpl.emit, LoggerImpl.Debug, LoggerImpl.Info, LoggerImpl.Warn, LoggerImpl.Error]

/-- C2: for each level name T among debug, info, warn and error, after
`logLevelHandler` has handled a request with `level=T` the filter reads back
T, and a following emission at severity L through
`LoggerImpl.Debug/Info/Warn/Error` appends the entry once to the console sink
and once to the file sink when L >= T, and leaves both sinks as they were
when L < T. -/
theorem level_round_trip (lib : GoLib) (logger : LoggerImpl) (query : Values) (T L : Level)
    (message : String) (args : List GoValue)
    (hT : T = .Debug ∨ T = .Info ∨ T = .Warn ∨ T = .Error)
    (hL : L = .Debug ∨ L = .Info ∨ L = .Warn ∨ L = .Error)
    (hq : Values.Get query "level" = T.asString) :
    (logLevelHandler lib logger ResponseWriter.fresh query).1.atomicLevel = T ∧
    ∃ l2, (logLevelHandler lib logger ResponseWriter.fresh query).1.emit L message args = some l2 ∧
      (T.toInt ≤ L.toInt →
        l2.console = (logLevelHandler lib logger ResponseWriter.fresh query).1.console ++ [⟨L, message, toZapFields args⟩] ∧
        l2.file = (logLevelHandler lib logger ResponseWriter.fresh query).1.file ++ [⟨L, message, toZapFields args⟩]) ∧
      (L.toInt < T.toInt →
        l2.console = (logLevelHandler lib logger ResponseWriter.fresh query).1.console ∧ l2.file = (logLevelHandler lib logger ResponseWriter.fresh query).1.file) := by
  obtain ⟨hne, hp⟩ := UnmarshalText_of_name lib T hT
  rw [← hq] at hne hp
  rw [logLevelHandler_valid lib logger _ query T hne hp]
  refine ⟨by simp [zapLog], _, emit_enabled _ L message args hL, ?_, ?_⟩
  · intro h
    have : T.Enabled L = true := by simp [Level.Enabled, h]
    simp [zapLog, this]
  · intro h
    have : T.Enabled L = false := by simp [Level.Enabled, h]
    simp [zapLog, this]

/-- C2, at a concrete request: after `?level=warn` on the logger of `New`, an
emission at Error is written to both sinks and one at Info to neither. -/
theorem level_round_trip_witness :
    (logLevelHandler GoLib.ascii New ResponseWriter.fresh [("level", ["warn"])]).1.atomicLevel
      = .Warn ∧
    (∃ l2, (logLevelHandler GoLib.ascii New ResponseWriter.fresh
        [("level", ["warn"])]).1.emit .Error "disk full" [.str "path", .str "/var"] = some l2 ∧
      l2.file = (logLevelHandler GoLib.ascii New ResponseWriter.fresh
        [("level", ["warn"])]).1.file ++
          [⟨.Error, "disk full", [⟨"path", .zapString, .str "/var"⟩]⟩]) ∧
    (∃ l2, (logLevelHandler GoLib.ascii New ResponseWriter.fresh
        [("level", ["warn"])]).1.emit .Info "started" [] = some l2 ∧
      l2.file = (logLevelHandler GoLib.ascii New ResponseWriter.fresh
        [("level", ["warn"])]).1.file) := by
  have h1 := level_round_trip GoLib.ascii New [("level", ["warn"])] .Warn .Error "disk full"
    [.str "path", .str "/var"] (by decide) (by decide) (by decide)
  have h2 := level_round_trip GoLib.ascii New [("level", ["warn"])] .Warn .Info "started"
    [] (by decide) (by decide) (by decide)
  obtain ⟨ha, l2, he, hw, _⟩ := h1
  obtain ⟨_, l3, he3, _, hn⟩ := h2
  exact ⟨ha, ⟨l2, he, (hw (by decide)).2⟩, ⟨l3, he3, (hn (by decide)).2⟩⟩

/-! ## Theorems: `toZapFields` -/

theorem pairInduction {α : Type} (P : List α → Prop) (h0 : P [])
    (h1 : ∀ a, P [a]) (h2 : ∀ a b rest, P rest → P (a :: b :: rest)) : ∀ l, P l
  | [] => h0
  | [a] => h1 a
  | a :: b :: rest => h2 a b rest (pairInduction P h0 h1 h2 rest)

theorem fieldOf_Key (key : String) (val : GoValue) : (fieldOf key val).Key = key := by
  cases val <;> rfl

theorem fieldOf_val (key : String) (val : GoValue) : (fieldOf key val).val = val := by
  cases val <;> rfl

theorem toZapFieldsLoop_acc (args : List GoValue) :
    ∀ fields, toZapFieldsLoop args fields = fields ++ toZapFieldsLoop args [] := by
  refine pairInduction (fun args => ∀ fields,
    toZapFieldsLoop args fields = fields ++ toZapFieldsLoop args []) ?_ ?_ ?_ args
  · intro fields; simp [toZapFieldsLoop]
  · intro a fields; simp [toZapFieldsLoop]
  · intro a b rest ih fields
    cases a with
    | str key =>
      simp only [toZapFieldsLoop]
      rw [ih (fields ++ [fieldOf key b]), ih ([] ++ [fieldOf key b])]
      simp
    | int n => simp only [toZapFieldsLoop]; exact ih fields
    | int64 n => simp only [toZapFieldsLoop]; exact ih fields
    | float64 n => simp only [toZapFieldsLoop]; exact ih fields
    | bool n => simp only [toZapFieldsLoop]; exact ih fields
    | other t r => simp only [toZapFieldsLoop]; exact ih fields

theorem toZapFields_pair (key : String) (v : GoValue) (rest : List GoValue) :
    toZapFields (.str key :: v :: rest) = fieldOf key v :: toZapFields rest := by
  simp only [toZapFields, toZapFieldsLoop]
  rw [toZapFieldsLoop_acc]
  simp

theorem toZapFieldsLoop_dropLast (args : List GoValue) :
    args.length % 2 = 1 → ∀ fields,
      toZapFieldsLoop args fields = toZapFieldsLoop args.dropLast fields := by
  refine pairInduction (fun args => args.length % 2 = 1 → ∀ fields,
    toZapFieldsLoop args fields = toZapFieldsLoop args.dropLast fields) ?_ ?_ ?_ args
  · intro h; simp at h
  · intro a _ fields; simp [toZapFieldsLoop]
  · intro a b rest ih h fields
    have hr : rest.length % 2 = 1 := by
      simp only [List.length_cons] at h; omega
    have hne : rest ≠ [] := by
      intro h0; subst h0; simp at hr
    obtain ⟨c, rest1, rfl⟩ := List.exists_cons_of_ne_nil hne
    have hd : (a :: b :: c :: rest1).dropLast = a :: b :: (c :: rest1).dropLast := by
      simp [List.dropLast]
    rw [hd]
    cases a <;> simp only [toZapFieldsLoop] <;> exact ih hr _

/-- C3: the code at odd-length field sequences. For every message and every
odd-length sequence passed to `LoggerImpl.Info`, `Debug`, `Warn` or `Error`,
the fields handed to zap are those of the sequence without its last element,
and the logger is left exactly as by the call without that element: the
trailing key is dropped and nothing marks it. -/
theorem odd_fields_trailing_key_dropped (logger : LoggerImpl) (message : String)
    (args : List GoValue) (hodd : args.length % 2 = 1) :
    toZapFields args = toZapFields args.dropLast ∧
    logger.Info message args = logger.Info message args.dropLast ∧
    logger.Debug message args = logger.Debug message args.dropLast ∧
    logger.Warn message args = logger.Warn message args.dropLast ∧
    logger.Error message args = logger.Error message args.dropLast := by
  have h : toZapFields args = toZapFields args.dropLast :=
    toZapFieldsLoop_dropLast args hodd []
  simp [LoggerImpl.Info, LoggerImpl.Debug, LoggerImpl.Warn, LoggerImpl.Error, h]

/-- C3, at a concrete call: `Info("login", "user")` on the logger of `New`
hands no field to zap and writes the entry of `Info("login")`. -/
theorem odd_fields_trailing_key_dropped_witness :
    toZapFields [.str "user"] = [] ∧
    (New.Info "login" [.str "user"]).console = [⟨.Info, "login", []⟩] ∧
    New.Info "login" [.str "user"] = New.Info "login" [] :=
  ⟨by decide, by decide,
    (odd_fields_trailing_key_dropped New "login" [.str "user"] (by decide)).2.1⟩

theorem toZapFields_skip (k v : GoValue) (rest : List GoValue)
    (hk : ∀ key, k ≠ .str key) : toZapFields (k :: v :: rest) = toZapFields rest := by
  cases k with
  | str key => exact absurd rfl (hk key)
  | int n => simp only [toZapFields, toZapFieldsLoop]
  | int64 n => simp only [toZapFields, toZapFieldsLoop]
  | float64 n => simp only [toZapFields, toZapFieldsLoop]
  | bool n => simp only [toZapFields, toZapFieldsLoop]
  | other t r => simp only [toZapFields, toZapFieldsLoop]

theorem toZapFields_append_even (pre : List GoValue) :
    pre.length % 2 = 0 → ∀ rest, toZapFields (pre ++ rest) = toZapFields pre ++ toZapFields rest := by
  refine pairInduction (fun pre => pre.length % 2 = 0 → ∀ rest,
    toZapFields (pre ++ rest) = toZapFields pre ++ toZapFields rest) ?_ ?_ ?_ pre
  · intro _ rest; simp [toZapFields, toZapFieldsLoop]
  · intro a h; simp at h
  · intro a b pre1 ih heven rest
    have hr : pre1.length % 2 = 0 := by
      simp only [List.length_cons] at heven; omega
    by_cases hs : ∃ key, a = .str key
    · obtain ⟨key, rfl⟩ := hs
      simp only [List.cons_append, toZapFields_pair, ih hr rest]
    · have hk : ∀ key, a ≠ .str key := fun key h => hs ⟨key, h⟩
      simp only [List.cons_append, toZapFields_skip a b _ hk, ih hr rest]

/-- C4, as stated, fails: on the even-length sequence `1, "v"` (an `int` in
key position) `toZapFields` returns no field, not `len(args)/2 = 1`; and on
`1, "v", "a", 2` it returns the one field of the pair that follows. -/
theorem toZapFields_skips_non_string_key :
    ¬ ((toZapFields [.int 1, .str "v"]).length = [GoValue.int 1, GoValue.str "v"].length / 2) ∧
    toZapFields [.int 1, .str "v", .str "a", .int 2] = [⟨"a", .zapInt, .int 2⟩] := by
  decide

/-- C4, amended: for every even-length sequence `args`: when the elements in
key position (even index) are all strings, `toZapFields args` returns exactly
`len(args)/2` fields, the i-th having key `args[2i]` and value `args[2i+1]`,
whatever the dynamic types of the values; and wherever a pair `k, v` stands
in `args` (after an even number of elements), the fields are those of what
precedes the pair, then the field of the pair when `k` is a string and
nothing when it is not (the pair is skipped), then those of what follows. -/
theorem toZapFields_pairs (args : List GoValue) (heven : args.length % 2 = 0) :
    ((∀ i, 2 * i < args.length → ∃ key, args[2 * i]? = some (GoValue.str key)) →
      (toZapFields args).length = args.length / 2 ∧
      ∀ i, i < args.length / 2 → ∃ f, (toZapFields args)[i]? = some f ∧
        args[2 * i]? = some (GoValue.str f.Key) ∧ args[2 * i + 1]? = some f.val) ∧
    (∀ pre k v post, args = pre ++ k :: v :: post → pre.length % 2 = 0 →
      (∀ key, k = .str key →
        toZapFields args = toZapFields pre ++ fieldOf key v :: toZapFields post) ∧
      ((∀ key, k ≠ .str key) →
        toZapFields args = toZapFields pre ++ toZapFields post)) := by
  refine ⟨?_, ?_⟩
  · revert heven
    refine pairInduction (fun args => args.length % 2 = 0 →
      (∀ i, 2 * i < args.length → ∃ key, args[2 * i]? = some (GoValue.str key)) →
      (toZapFields args).length = args.length / 2 ∧
      ∀ i, i < args.length / 2 → ∃ f, (toZapFields args)[i]? = some f ∧
        args[2 * i]? = some (GoValue.str f.Key) ∧ args[2 * i + 1]? = some f.val) ?_ ?_ ?_ args
    · intro _ _
      exact ⟨by simp [toZapFields, toZapFieldsLoop], fun i hi => by simp at hi⟩
    · intro a h; simp at h
    · intro a b rest ih heven hkeys
      obtain ⟨key, hkey⟩ := hkeys 0 (by simp)
      simp at hkey
      subst hkey
      have hr : rest.length % 2 = 0 := by
        simp only [List.length_cons] at heven; omega
      have hk : ∀ i, 2 * i < rest.length → ∃ key, rest[2 * i]? = some (GoValue.str key) := by
        intro i hi
        obtain ⟨k, hk⟩ := hkeys (i + 1) (by simp only [List.length_cons]; omega)
        refine ⟨k, ?_⟩
        have e : 2 * (i + 1) = 2 * i + 1 + 1 := by ring
        rw [e] at hk
        simpa using hk
      obtain ⟨hlen, hidx⟩ := ih hr hk
      rw [toZapFields_pair]
      refine ⟨by simp only [List.length_cons, hlen]; omega, ?_⟩
      intro i hi
      cases i with
      | zero => exact ⟨fieldOf key b, by simp, by simp [fieldOf_Key], by simp [fieldOf_val]⟩
      | succ j =>
        obtain ⟨f, hf, h1, h2⟩ := hidx j (by simp only [List.length_cons] at hi; omega)
        refine ⟨f, by simpa using hf, ?_, ?_⟩
        · have e : 2 * (j + 1) = 2 * j + 1 + 1 := by ring
          rw [e]; simpa using h1
        · have e : 2 * (j + 1) + 1 = 2 * j + 1 + 1 + 1 := by ring
          rw [e]; simpa using h2
  · intro pre k v post hargs hpre
    subst hargs
    refine ⟨?_, ?_⟩
    · intro key hk
      subst hk
      rw [toZapFields_append_even pre hpre, toZapFields_pair]
    · intro hk
      rw [toZapFields_append_even pre hpre, toZapFields_skip k v post hk]

/-- C4, amended, at concrete calls: two pairs with string keys, an `int` and
a `bool` as values; and a sequence whose first key is an `int`, where that
pair is skipped and the pair after it is kept. -/
theorem toZapFields_pairs_witness :
    ((toZapFields [.str "line", .int 7, .str "ok", .bool true]).length = 2 ∧
      ∃ f, (toZapFields [.str "line", .int 7, .str "ok", .bool true])[1]? = some f ∧
        f.Key = "ok" ∧ f.val = .bool true) ∧
    toZapFields [.int 1, .str "v", .str "a", .int 2] = toZapFields [.str "a", .int 2] := by
  have h := (toZapFields_pairs [.str "line", .int 7, .str "ok", .bool true] (by decide)).1
    (by
      intro i hi
      have : i = 0 ∨ i = 1 := by simp at hi; omega
      rcases this with h | h <;> subst h
      · exact ⟨"line", rfl⟩
      · exact ⟨"ok", rfl⟩)
  have hskip := ((toZapFields_pairs [.int 1, .str "v", .str "a", .int 2] (by decide)).2
    [] (.int 1) (.str "v") [.str "a", .int 2] rfl (by decide)).2 (by intro key hk; cases hk)
  refine ⟨⟨h.1, ?_⟩, hskip⟩
  obtain ⟨f, hf, h1, h2⟩ := h.2 1 (by decide)
  refine ⟨f, hf, ?_, ?_⟩
  · have : GoValue.str "ok" = GoValue.str f.Key := by simpa using h1
    injection this with e; exact e.symm
  · have : GoValue.bool true = f.val := by simpa using h2
    exact this.symm

/-! ## Theorems: flushing -/

theorem shutdownFlush_console_only (logger : LoggerImpl) (op cause : String)
    (ci cm : Option GoError)
    (hi : ci = none ∨ ci = some (.pathError op "/dev/stdout" cause))
    (hm : cm = none ∨ cm = some (.pathError op "/dev/stdout" cause)) :
    shutdownFlush logger ⟨ci, none⟩ ⟨cm, none⟩ = none := by
  rcases hi with h | h <;> rcases hm with h' | h' <;> subst h <;> subst h' <;>
    cases hr : logger.logRotationEnabled <;>
    simp [shutdownFlush, zapSync, multierrAppend, isIgnorableSyncError, errorsAsPathError,
      errorsJoin, hr]

theorem shutdownFlush_file_only (logger : LoggerImpl) (e : GoError) (om : FlushOutcome)
    (hrot : logger.logRotationEnabled = false)
    (he : ∀ op cause, e ≠ .pathError op "/dev/stdout" cause) :
    shutdownFlush logger ⟨none, some e⟩ om ≠ none := by
  have h1 : zapSync logger ⟨none, some e⟩ = [e] := by
    simp [zapSync, multierrAppend, hrot]
  have h2 : isIgnorableSyncError [e] = false := by
    cases e with
    | pathError op path cause =>
      have : path ≠ "/dev/stdout" := fun hp => he op cause (by rw [hp])
      simp [isIgnorableSyncError, errorsAsPathError, this]
    | other msg => simp [isIgnorableSyncError, errorsAsPathError]
  simp only [shutdownFlush, h1, h2, errorsJoin]
  simp [List.filter]

/-- C5: the code at a flush in which both destinations fail. The console
answers with the path error of `/dev/stdout` and the log file with a path
error of its own; zap combines the two, `errors.As` finds the console's path
error first, the combined error counts as ignorable, and `Shutdown` returns
nil although the flush of the file destination failed, in the function of
lines 111-119 and in a whole run from `startLogger` to the return of
`Shutdown`. -/
theorem Shutdown_swallows_file_failure :
    zapSync New ⟨some (.pathError "sync" "/dev/stdout" "invalid argument"),
        some (.pathError "sync" "/tmp/logs/app.log" "input/output error")⟩ =
      [.pathError "sync" "/dev/stdout" "invalid argument",
       .pathError "sync" "/tmp/logs/app.log" "input/output error"] ∧
    shutdownFlush New
      ⟨some (.pathError "sync" "/dev/stdout" "invalid argument"),
        some (.pathError "sync" "/tmp/logs/app.log" "input/output error")⟩
      ⟨some (.pathError "sync" "/dev/stdout" "invalid argument"),
        some (.pathError "sync" "/tmp/logs/app.log" "input/output error")⟩ = none ∧
    shutdownResults (fun _ => true) []
      [.shutdownCall, .waiterWake, .serverExit false, .waiterExit false, .closerClose,
       .shutdownReturn
         ⟨some (.pathError "sync" "/dev/stdout" "invalid argument"),
           some (.pathError "sync" "/tmp/logs/app.log" "input/output error")⟩
         ⟨some (.pathError "sync" "/dev/stdout" "invalid argument"),
           some (.pathError "sync" "/tmp/logs/app.log" "input/output error")⟩] =
      some [none] := by
  refine ⟨by decide, by decide, by decide⟩

/-- C6, as stated, fails: on a flush in which the log file answers with an
error that is not ignorable, zap returns that error to `LoggerImpl.Sync`, and
the caller of `Sync` is handed the same as after a flush without any
failure. -/
theorem Sync_hides_file_failure :
    zapSync New ⟨none, some (.pathError "sync" "/tmp/logs/app.log" "input/output error")⟩ =
      [.pathError "sync" "/tmp/logs/app.log" "input/output error"] ∧
    isIgnorableSyncError
      (zapSync New ⟨none, some (.pathError "sync" "/tmp/logs/app.log" "input/output error")⟩)
      = false ∧
    (New.Sync ⟨none, some (.pathError "sync" "/tmp/logs/app.log" "input/output error")⟩
        ⟨none, some (.pathError "sync" "/tmp/logs/app.log" "input/output error")⟩).2 =
      (New.Sync ⟨none, none⟩ ⟨none, none⟩).2 := by
  refine ⟨by decide, by decide, rfl⟩

/-- C6, amended: `LoggerImpl.Sync` flushes the application-facing logger and
then the internal diagnostic logger, and returns nothing: whatever the
destinations answer, the caller is handed the same, so a failure on the file
destination is swallowed like one on the console destination. -/
theorem Sync_flushes_both_returns_nothing (logger : LoggerImpl) (om oi om1 oi1 : FlushOutcome) :
    (logger.Sync om oi).1 =
      [("mainLogger", zapSync logger om), ("internalLogger", zapSync logger oi)] ∧
    (logger.Sync om oi).2 = (logger.Sync om1 oi1).2 := by
  exact ⟨rfl, rfl⟩

/-! ## Theorems: the lifecycle -/

@[simp]
theorem zapLog_doneCh (l : LoggerImpl) (lv : Level) (m : String) (f : List Field) :
    (zapLog l lv m f).doneCh = l.doneCh := rfl
@[simp]
theorem zapLog_wg (l : LoggerImpl) (lv : Level) (m : String) (f : List Field) :
    (zapLog l lv m f).wg = l.wg := rfl
@[simp]
theorem zapLog_ctxDone (l : LoggerImpl) (lv : Level) (m : String) (f : List Field) :
    (zapLog l lv m f).ctxDone = l.ctxDone := rfl
@[simp]
theorem Error_doneCh (l : LoggerImpl) (m : String) (a : List GoValue) :
    (l.Error m a).doneCh = l.doneCh := rfl
@[simp]
theorem Error_wg (l : LoggerImpl) (m : String) (a : List GoValue) :
    (l.Error m a).wg = l.wg := rfl
@[simp]
theorem Error_ctxDone (l : LoggerImpl) (m : String) (a : List GoValue) :
    (l.Error m a).ctxDone = l.ctxDone := rfl

theorem IsShutdown_of_inv (s : System) (hinv : s.Inv) :
    s.logger.IsShutdown = (s.logger.doneCh.closed, s.logger) := by
  obtain ⟨hb, -⟩ := hinv
  cases hc : s.logger.doneCh.closed <;>
    simp [LoggerImpl.IsShutdown, Chan.recv, hb, hc]

theorem Inv_step (s s1 : System) (e : Event) (hinv : s.Inv) (h : step s e = .ok s1) :
    s1.Inv := by
  obtain ⟨hb, hc, hn, hw, hz, hx, hr⟩ := hinv
  cases e with
  | serverExit failed =>
    simp only [step] at h
    split_ifs at h with c1 c2 c3
    all_goals (injection h with h; subst h)
    all_goals simp_all [System.Inv]
  | waiterWake => 
    simp only [step] at h
    split_ifs at h with c1
    all_goals (injection h with h; subst h)
    all_goals simp_all [System.Inv]
  | waiterExit failed =>
    simp only [step] at h
    split_ifs at h with c1 c2 c3
    all_goals (injection h with h; subst h)
    all_goals simp_all [System.Inv]
  | closerClose => 
    simp only [step] at h
    split_ifs at h with c1
    cases hcl : s.logger.doneCh.closed
    · simp [Chan.close, hcl] at h
      subst h
      simp_all [System.Inv]
    · simp [Chan.close, hcl] at h
  | shutdownCall => 
    simp only [step] at h
    split_ifs at h with c1
    all_goals (injection h with h; subst h)
    all_goals simp_all [System.Inv]
  | shutdownReturn oi om => 
    simp only [step] at h
    split_ifs at h with c1
    cases hcl : s.logger.doneCh.closed
    · simp [Chan.recv, hcl, hb] at h
    · simp [Chan.recv, hcl, hb] at h
      subst h
      exact ⟨hb, hc, hn, hw, hz, hx, fun _ => hcl⟩
  | poll => 
    simp only [step] at h
    injection h with h; subst h
    rw [IsShutdown_of_inv s ⟨hb, hc, hn, hw, hz, hx, hr⟩]
    exact ⟨hb, hc, hn, hw, hz, hx, hr⟩

theorem step_ne_panicked (s : System) (e : Event) (hinv : s.Inv) :
    step s e ≠ .error .panicked := by
  obtain ⟨hb, hc, hn, hw, hz, hx, hr⟩ := hinv
  cases e with
  | serverExit failed =>
    have hwg : (if failed = true then s.logger.Error "HTTP server failed" [zapErrorArg]
        else s.logger).wg = s.logger.wg := by cases failed <;> rfl
    simp only [step]
    by_cases c1 : (s.serverRunning && (failed || s.serverClosing)) = true
    · have hrun : s.serverRunning = true := by
        simp only [Bool.and_eq_true] at c1; exact c1.1
      have hne : s.logger.wg ≠ 0 := by rw [hw, hrun]; simp
      rw [if_pos c1, if_neg (by rw [hwg]; exact hne)]
      simp
    · rw [if_neg c1]; simp
  | waiterWake =>
    simp only [step]
    split_ifs <;> simp
  | waiterExit failed =>
    have hwg : (if failed = true then s.logger.Error "Server shutdown failed" [zapErrorArg]
        else s.logger).wg = s.logger.wg := by cases failed <;> rfl
    simp only [step]
    by_cases c1 : s.waiter = .shuttingDown
    · have hne : s.logger.wg ≠ 0 := by rw [hw, c1]; simp
      rw [if_pos c1, if_neg (by rw [hwg]; exact hne)]
      simp
    · rw [if_neg c1]; simp
  | closerClose =>
    simp only [step]
    by_cases c1 : (s.closerRunning && decide (s.logger.wg = 0)) = true
    · rw [if_pos c1]
      cases hcl : s.logger.doneCh.closed
      · simp [Chan.close, hcl]
      · rw [hc, hcl] at c1; simp at c1
    · rw [if_neg c1]; simp
  | shutdownCall =>
    simp only [step]
    split_ifs <;> simp
  | shutdownReturn oi om =>
    simp only [step]
    split_ifs with c1
    · cases hcl : s.logger.doneCh.closed <;> simp [Chan.recv, hcl, hb]
    · simp
  | poll => simp [step]

theorem Inv_run (es : List Event) : ∀ (s s1 : System), s.Inv → run s es = .ok s1 → s1.Inv := by
  induction es with
  | nil =>
    intro s s1 hinv h
    simp only [run] at h
    injection h with h; subst h; exact hinv
  | cons e es ih =>
    intro s s1 hinv h
    simp only [run] at h
    cases hs : step s e with
    | error x => rw [hs] at h; cases h
    | ok s2 =>
      rw [hs] at h
      exact ih s2 s1 (Inv_step s s2 e hinv hs) h

theorem run_ne_panicked (es : List Event) :
    ∀ (s : System), s.Inv → run s es ≠ .error .panicked := by
  induction es with
  | nil => intro s _; simp [run]
  | cons e es ih =>
    intro s hinv
    simp only [run]
    cases hs : step s e with
    | error x =>
      have := step_ne_panicked s e hinv
      rw [hs] at this
      simpa using this
    | ok s2 => exact ih s2 (Inv_step s s2 e hinv hs)

theorem run_append (es1 es2 : List Event) :
    ∀ (s s1 : System), run s es1 = .ok s1 → run s (es1 ++ es2) = run s1 es2 := by
  induction es1 with
  | nil =>
    intro s s1 h
    simp only [run] at h
    injection h with h; subst h; rfl
  | cons e es ih =>
    intro s s1 h
    simp only [run, List.cons_append] at h ⊢
    cases hs : step s e with
    | error x => rw [hs] at h; cases h
    | ok s2 =>
      rw [hs] at h
      simp only []
      exact ih s2 s1 h

theorem Start_spec (canOpen : String → Bool) (l : LoggerImpl) (s0 : System)
    (hl : l.Unstarted) (h : l.Start canOpen = .ok s0) :
    s0.Inv ∧ s0.logger.ctxDone = false ∧ s0.returned = [] ∧ s0.closes = 0 := by
  obtain ⟨h1, h2, h3⟩ := hl
  simp only [LoggerImpl.Start, LoggerImpl.createLogger] at h
  split_ifs at h with c1 c2
  all_goals (injection h with h; subst h)
  all_goals simp [System.Inv, h1, h2, h3, Chan.make]

theorem step_facts (s s1 : System) (e : Event) (hinv : s.Inv) (h : step s e = .ok s1) :
    (s.logger.doneCh.closed = true → s1.logger.doneCh.closed = true) ∧
    (s.returned ≠ [] → s1.returned ≠ []) ∧
    ((∃ oi om, e = .shutdownReturn oi om) → s1.returned ≠ []) ∧
    (e ≠ .shutdownCall → s1.logger.ctxDone = s.logger.ctxDone) := by
  obtain ⟨hb, hc, hn, hw, hz, hx, hr⟩ := hinv
  cases e with
  | serverExit failed =>
    simp only [step] at h
    split_ifs at h with c1 c2 c3
    all_goals (injection h with h; subst h)
    all_goals simp
  | waiterWake =>
    simp only [step] at h
    split_ifs at h with c1
    all_goals (injection h with h; subst h)
    all_goals simp
  | waiterExit failed =>
    simp only [step] at h
    split_ifs at h with c1 c2 c3
    all_goals (injection h with h; subst h)
    all_goals simp
  | closerClose =>
    simp only [step] at h
    split_ifs at h with c1
    cases hcl : s.logger.doneCh.closed
    · simp [Chan.close, hcl] at h
      subst h
      simp
    · simp [Chan.close, hcl] at h
  | shutdownCall =>
    simp only [step] at h
    split_ifs at h with c1
    all_goals (injection h with h; subst h)
    all_goals simp
  | shutdownReturn oi om =>
    simp only [step] at h
    split_ifs at h with c1
    cases hcl : s.logger.doneCh.closed
    · simp [Chan.recv, hcl, hb] at h
    · simp [Chan.recv, hcl, hb] at h
      subst h
      simp [hcl]
  | poll =>
    simp only [step] at h
    injection h with h; subst h
    rw [IsShutdown_of_inv s ⟨hb, hc, hn, hw, hz, hx, hr⟩]
    simp

theorem run_facts (es : List Event) : ∀ (s s1 : System), s.Inv → run s es = .ok s1 →
    (s.logger.doneCh.closed = true → s1.logger.doneCh.closed = true) ∧
    (s.returned ≠ [] → s1.returned ≠ []) ∧
    ((∃ oi om, Event.shutdownReturn oi om ∈ es) → s1.returned ≠ []) ∧
    (Event.shutdownCall ∉ es → s1.logger.ctxDone = s.logger.ctxDone) := by
  induction es with
  | nil =>
    intro s s1 _ h
    simp only [run] at h
    injection h with h; subst h
    simp
  | cons e es ih =>
    intro s s1 hinv h
    simp only [run] at h
    cases hs : step s e with
    | error x => rw [hs] at h; cases h
    | ok s2 =>
      rw [hs] at h
      obtain ⟨a1, a2, a3, a4⟩ := step_facts s s2 e hinv hs
      obtain ⟨b1, b2, b3, b4⟩ := ih s2 s1 (Inv_step s s2 e hinv hs) h
      refine ⟨fun hc => b1 (a1 hc), fun hr => b2 (a2 hr), ?_, ?_⟩
      · rintro ⟨oi, om, hmem⟩
        rcases List.mem_cons.mp hmem with heq | hmem
        · exact b2 (a3 ⟨oi, om, heq.symm⟩)
        · exact b3 ⟨oi, om, hmem⟩
      · intro hno
        have h1 : e ≠ .shutdownCall := fun he => hno (by rw [he]; exact List.mem_cons_self _ _)
        have h2 : Event.shutdownCall ∉ es := fun hm => hno (List.mem_cons_of_mem _ hm)
        rw [b4 h2, a4 h1]

theorem not_closed_of_not_cancelled (s : System) (hinv : s.Inv)
    (hctx : s.logger.ctxDone = false) : s.logger.doneCh.closed = false := by
  obtain ⟨hb, hc, hn, hw, hz, hx, hr⟩ := hinv
  cases hcl : s.logger.doneCh.closed
  · rfl
  · exfalso
    have hwg := hz hcl
    rw [hw] at hwg
    have hfin : s.waiter = .finished := by
      by_contra hne
      simp [hne] at hwg
    have := hx (by rw [hfin]; decide)
    rw [hctx] at this
    cases this

theorem shutdownFlush_congr (l1 l2 : LoggerImpl) (oi om : FlushOutcome)
    (h : l1.logRotationEnabled = l2.logRotationEnabled) :
    shutdownFlush l1 oi om = shutdownFlush l2 oi om := by
  simp [shutdownFlush, zapSync, h]

/-- C7: on a started logger, after any run of the goroutines of `Start`, of
calls of `Shutdown` and of polls, a call of `IsShutdown` never blocks (the
poll is a step that is always enabled) and does not consume the signal (it
leaves the logger exactly as it was); it returns false as long as `doneCh`
has not been closed, in particular as long as `Shutdown` has not been
invoked; it returns true once a call of `Shutdown` has returned; and once it
has returned true it returns true after every continuation of the run. -/
theorem IsShutdown_reports_completion (canOpen : String → Bool) (l : LoggerImpl)
    (s0 s : System) (es : List Event) (hl : l.Unstarted)
    (hstart : l.Start canOpen = .ok s0) (hrun : run s0 es = .ok s) :
    step s .poll = .ok s ∧
    s.logger.IsShutdown.2 = s.logger ∧
    (s.closes = 0 → s.logger.IsShutdown.1 = false) ∧
    (Event.shutdownCall ∉ es → s.logger.IsShutdown.1 = false) ∧
    ((∃ oi om, Event.shutdownReturn oi om ∈ es) → s.logger.IsShutdown.1 = true) ∧
    (s.logger.IsShutdown.1 = true →
      ∀ es1 s1, run s es1 = .ok s1 → s1.logger.IsShutdown.1 = true) := by
  obtain ⟨hinv0, hctx0, hret0, hcl0⟩ := Start_spec canOpen l s0 hl hstart
  have hinv : s.Inv := Inv_run es s0 s hinv0 hrun
  obtain ⟨f1, f2, f3, f4⟩ := run_facts es s0 s hinv0 hrun
  have hpoll := IsShutdown_of_inv s hinv
  refine ⟨?_, ?_, ?_, ?_, ?_, ?_⟩
  · simp [step, hpoll]
  · rw [hpoll]
  · intro h0
    rw [hpoll]
    obtain ⟨hb, hc, hn, hw, hz, hx, hr⟩ := hinv
    cases hcl : s.logger.doneCh.closed
    · rfl
    · rw [hn, hcl] at h0; simp at h0
  · intro hno
    rw [hpoll]
    exact not_closed_of_not_cancelled s hinv (by rw [f4 hno]; exact hctx0)
  · intro hex
    rw [hpoll]
    exact hinv.2.2.2.2.2.2 (f3 hex)
  · intro htrue es1 s1 hrun1
    rw [hpoll] at htrue
    rw [IsShutdown_of_inv s1 (Inv_run es1 s s1 hinv hrun1)]
    exact (run_facts es1 s s1 hinv hrun1).1 htrue

theorem startedDefault_eq : New.Start (fun _ => true) = .ok startedDefault := rfl

/-- C7, on the logger of `New` started with its defaults: before any event
`IsShutdown` returns false; after a run in which `Shutdown` is called, the
goroutines finish, `doneCh` is closed and `Shutdown` returns, it returns
true, and a poll leaves the state as it is. -/
theorem IsShutdown_reports_completion_witness :
    New.Start (fun _ => true) = .ok startedDefault ∧
    startedDefault.logger.IsShutdown.1 = false ∧
    ∃ s, run startedDefault (orderlyShutdown ⟨none, none⟩ ⟨none, none⟩) = .ok s ∧
      s.logger.IsShutdown.1 = true ∧ step s .poll = .ok s := by
  refine ⟨rfl, ?_, ?_⟩
  · exact (IsShutdown_reports_completion (fun _ => true) New startedDefault startedDefault []
      ⟨rfl, rfl, rfl⟩ rfl rfl).2.2.2.1 (by simp)
  · have hsome : (run startedDefault (orderlyShutdown ⟨none, none⟩ ⟨none, none⟩)).toOption.isSome
        = true := by decide
    cases hrun : run startedDefault (orderlyShutdown ⟨none, none⟩ ⟨none, none⟩) with
    | error x => rw [hrun] at hsome; simp [Except.toOption] at hsome
    | ok s =>
      have h := IsShutdown_reports_completion (fun _ => true) New startedDefault s
        (orderlyShutdown ⟨none, none⟩ ⟨none, none⟩) ⟨rfl, rfl, rfl⟩ rfl hrun
      exact ⟨s, rfl, h.2.2.2.2.1 ⟨⟨none, none⟩, ⟨none, none⟩, by simp [orderlyShutdown]⟩, h.1⟩

/-- C8, as stated, fails in what the second call returns: after an orderly
first `Shutdown`, a second call in whose flush the log file answers with an
error returns that flush error, which is neither nil nor an indication that
the logger is already shut down. -/
theorem second_Shutdown_returns_flush_error :
    shutdownResults (fun _ => true) []
      (orderlyShutdown ⟨none, none⟩ ⟨none, none⟩ ++
        [.shutdownCall,
         .shutdownReturn ⟨none, some (.pathError "sync" "/tmp/logs/app.log" "input/output error")⟩
           ⟨none, none⟩]) =
      some [none, some [[.pathError "sync" "/tmp/logs/app.log" "input/output error"]]] := by
  decide

/-- C8, amended: on a started logger, once a first call of `Shutdown` has
returned, a second call does not deadlock or panic: it can cancel again and
receive from `doneCh` at once, without any step of another goroutine, and it
returns the combination of the flush errors of that call (nil when no flush
error is kept); `doneCh` has been closed exactly once, and stays so in every
continuation of the run, none of which panics. -/
theorem second_Shutdown_returns (canOpen : String → Bool) (l : LoggerImpl)
    (s0 s : System) (es : List Event) (hl : l.Unstarted)
    (hstart : l.Start canOpen = .ok s0) (hrun : run s0 es = .ok s)
    (hfirst : s.returned ≠ []) (hout : s.inShutdown = false) (oi om : FlushOutcome) :
    ∃ s1 s2, step s .shutdownCall = .ok s1 ∧ step s1 (.shutdownReturn oi om) = .ok s2 ∧
      s2.returned = s.returned ++ [shutdownFlush s.logger oi om] ∧
      s.closes = 1 ∧ s2.closes = 1 ∧
      (∀ es1, run s2 es1 ≠ .error .panicked) ∧
      (∀ es1 s3, run s2 es1 = .ok s3 → s3.closes = 1) := by
  obtain ⟨hinv0, -⟩ := Start_spec canOpen l s0 hl hstart
  have hinv : s.Inv := Inv_run es s0 s hinv0 hrun
  have hclosed : s.logger.doneCh.closed = true := hinv.2.2.2.2.2.2 hfirst
  have hbuf : s.logger.doneCh.buffered = 0 := hinv.1
  have hcl1 : s.closes = 1 := by rw [hinv.2.2.1, hclosed]; rfl
  have h1 : step s .shutdownCall =
      .ok { s with logger := { s.logger with ctxDone := true }, inShutdown := true } := by
    simp [step, hout]
  have h2 : step { s with logger := { s.logger with ctxDone := true }, inShutdown := true }
      (.shutdownReturn oi om) =
      .ok { s with logger := { s.logger with ctxDone := true }, inShutdown := false,
                   returned := s.returned ++
                     [shutdownFlush { s.logger with ctxDone := true } oi om] } := by
    simp [step, Chan.recv, hclosed, hbuf]
  have hinv2 := Inv_step _ _ _ (Inv_step _ _ _ hinv h1) h2
  refine ⟨_, _, h1, h2, ?_, hcl1, hcl1, ?_, ?_⟩
  · simp only []
    rw [shutdownFlush_congr { s.logger with ctxDone := true } s.logger oi om rfl]
  · intro es1
    exact run_ne_panicked es1 _ hinv2
  · intro es1 s3 hrun3
    have hinv3 := Inv_run es1 _ s3 hinv2 hrun3
    have hc3 := (run_facts es1 _ s3 hinv2 hrun3).1 hclosed
    rw [hinv3.2.2.1, hc3]; rfl

/-- C8, amended, on the logger of `New` started with its defaults: after an
orderly first `Shutdown` a second one returns at once, here with nil, and
`doneCh` has been closed once. -/
theorem second_Shutdown_returns_witness :
    New.Start (fun _ => true) = .ok startedDefault ∧
    ∃ s s1 s2, run startedDefault (orderlyShutdown ⟨none, none⟩ ⟨none, none⟩) = .ok s ∧
      step s .shutdownCall = .ok s1 ∧
      step s1 (.shutdownReturn ⟨none, none⟩ ⟨none, none⟩) = .ok s2 ∧
      s2.returned = s.returned ++ [none] ∧ s2.closes = 1 := by
  refine ⟨rfl, ?_⟩
  have hsome : ((run startedDefault (orderlyShutdown ⟨none, none⟩ ⟨none, none⟩)).toOption.map
      (fun s => (s.returned, s.inShutdown, s.logger.logRotationEnabled))) =
      some ([none], false, false) := by decide
  cases hrun : run startedDefault (orderlyShutdown ⟨none, none⟩ ⟨none, none⟩) with
  | error x => rw [hrun] at hsome; simp [Except.toOption] at hsome
  | ok s =>
    rw [hrun] at hsome
    simp only [Except.toOption, Option.map_some', Option.some.injEq, Prod.mk.injEq] at hsome
    obtain ⟨hret, hin, hrot⟩ := hsome
    obtain ⟨s1, s2, h1, h2, h3, -, h5, -⟩ :=
      second_Shutdown_returns (fun _ => true) New startedDefault s
        (orderlyShutdown ⟨none, none⟩ ⟨none, none⟩) ⟨rfl, rfl, rfl⟩ rfl hrun
        (by rw [hret]; simp) hin ⟨none, none⟩ ⟨none, none⟩
    refine ⟨s, s1, s2, rfl, h1, h2, ?_, h5⟩
    rw [h3]
    have : shutdownFlush s.logger ⟨none, none⟩ ⟨none, none⟩ = none := by
      simp [shutdownFlush, zapSync, multierrAppend, hrot, errorsJoin]
    rw [this]

/-! ## Theorems: configuration -/

theorem Start_keeps_config (canOpen : String → Bool) (l : LoggerImpl) (s : System)
    (h : l.Start canOpen = .ok s) :
    s.logger.maxSizeMB = l.maxSizeMB ∧ s.logger.maxBackups = l.maxBackups ∧
    s.logger.maxAge = l.maxAge ∧ s.logger.logFile = l.logFile ∧
    s.logger.logRotationEnabled = l.logRotationEnabled ∧
    s.logger.logServerPort = l.logServerPort := by
  simp only [LoggerImpl.Start, LoggerImpl.createLogger] at h
  split_ifs at h with c1 c2
  all_goals (injection h with h; subst h)
  all_goals simp [zapLog]

theorem Start_ok_iff (canOpen : String → Bool) (l : LoggerImpl) :
    (∃ s, l.Start canOpen = .ok s) ↔
      (l.logRotationEnabled = true ∨ canOpen l.logFile = true) := by
  simp only [LoggerImpl.Start, LoggerImpl.createLogger]
  split_ifs with c1 c2 <;> simp [c1, *]

theorem configure_fields (c : Config) (rest : List Config) :
    (configure (c :: rest)).maxSizeMB = (if c.MaxSizeMB = "" then 10 else toInt c.MaxSizeMB) ∧
    (configure (c :: rest)).maxBackups = (if c.MaxBackups = "" then 3 else toInt c.MaxBackups) ∧
    (configure (c :: rest)).maxAge = (if c.MaxAge = "" then 7 else toInt c.MaxAge) ∧
    (configure (c :: rest)).logFile =
      (if c.LogFile = "" then "/tmp/logs/app.log" else c.LogFile) ∧
    (configure (c :: rest)).logRotationEnabled = c.LogRotation ∧
    (configure (c :: rest)).logServerPort = "8081" := by
  simp only [configure, LoggerImpl.WithLogfile, LoggerImpl.WithMaxSizeMB,
    LoggerImpl.WithMaxBackups, LoggerImpl.WithMaxAge, LoggerImpl.WithLogRotation]
  by_cases h1 : c.LogFile = "" <;> by_cases h2 : c.MaxSizeMB = "" <;>
    by_cases h3 : c.MaxBackups = "" <;> by_cases h4 : c.MaxAge = "" <;>
    simp [h1, h2, h3, h4, New, MaxSizeMB, MaxBackups, MaxAge, LogFile, LoggerServerPort]

/-- C9: for every Config `c` passed to `startLogger` (first of the variadic
arguments), each of maxSizeMB, maxBackups, maxAge and logFile of the
resulting logger equals its default (10, 3, 7, "/tmp/logs/app.log") when the
field of `c` is empty, and the value supplied otherwise (the text through
`toInt`, the path as it is); logRotationEnabled equals `c.LogRotation` and
the port is "8081"; with no Config every field holds its default. A logger
results exactly when rotation is on or the log file can be opened. -/
theorem startLogger_fields (canOpen : String → Bool) (c : Config) (rest : List Config) :
    (∀ s, startLogger canOpen (c :: rest) = .ok s →
      s.logger.maxSizeMB = (if c.MaxSizeMB = "" then 10 else toInt c.MaxSizeMB) ∧
      s.logger.maxBackups = (if c.MaxBackups = "" then 3 else toInt c.MaxBackups) ∧
      s.logger.maxAge = (if c.MaxAge = "" then 7 else toInt c.MaxAge) ∧
      s.logger.logFile = (if c.LogFile = "" then "/tmp/logs/app.log" else c.LogFile) ∧
      s.logger.logRotationEnabled = c.LogRotation ∧
      s.logger.logServerPort = "8081") ∧
    (∀ s, startLogger canOpen [] = .ok s →
      s.logger.maxSizeMB = 10 ∧ s.logger.maxBackups = 3 ∧ s.logger.maxAge = 7 ∧
      s.logger.logFile = "/tmp/logs/app.log" ∧ s.logger.logRotationEnabled = false ∧
      s.logger.logServerPort = "8081") ∧
    ((∃ s, startLogger canOpen (c :: rest) = .ok s) ↔
      (c.LogRotation = true ∨
        canOpen (if c.LogFile = "" then "/tmp/logs/app.log" else c.LogFile) = true)) ∧
    ((∃ s, startLogger canOpen [] = .ok s) ↔ canOpen "/tmp/logs/app.log" = true) := by
  obtain ⟨c1, c2, c3, c4, c5, c6⟩ := configure_fields c rest
  refine ⟨?_, ?_, ?_, ?_⟩
  · intro s h
    obtain ⟨h1, h2, h3, h4, h5, h6⟩ := Start_keeps_config canOpen _ s h
    exact ⟨h1.trans c1, h2.trans c2, h3.trans c3, h4.trans c4, h5.trans c5, h6.trans c6⟩
  · intro s h
    obtain ⟨h1, h2, h3, h4, h5, h6⟩ := Start_keeps_config canOpen _ s h
    exact ⟨h1, h2, h3, h4, h5, h6⟩
  · simp only [startLogger]
    rw [Start_ok_iff, c4, c5]
  · simp only [startLogger]
    rw [Start_ok_iff]
    simp [configure, New, LogFile]

/-- C9, at the configuration of the tests: sizes "1", "2", "3" and a path. -/
theorem startLogger_fields_witness :
    ∃ s, startLogger (fun _ => true) [⟨"1", "2", "3", "/tmp/x/app.log", false⟩] = .ok s ∧
      s.logger.maxSizeMB = 1 ∧ s.logger.maxBackups = 2 ∧ s.logger.maxAge = 3 ∧
      s.logger.logFile = "/tmp/x/app.log" ∧ s.logger.logRotationEnabled = false ∧
      s.logger.logServerPort = "8081" := by
  have h := startLogger_fields (fun _ => true) ⟨"1", "2", "3", "/tmp/x/app.log", false⟩ []
  obtain ⟨s, hs⟩ := h.2.2.1.mpr (Or.inr rfl)
  obtain ⟨h1, h2, h3, h4, h5, h6⟩ := h.1 s hs
  refine ⟨s, hs, ?_, ?_, ?_, ?_, h5, h6⟩
  · rw [h1]; decide
  · rw [h2]; decide
  · rw [h3]; decide
  · rw [h4]; decide

/-! ## Theorems: `toInt` on malformed text -/

theorem parseUintLoop_err (bs : List Nat) : ∀ n,
    ((parseUintLoop bs n).2 = some .ErrSyntax → (parseUintLoop bs n).1 = 0) ∧
    ((parseUintLoop bs n).2 = some .ErrRange → (parseUintLoop bs n).1 = 2 ^ 64 - 1) := by
  induction bs with
  | nil => intro n; simp [parseUintLoop]
  | cons c rest ih =>
    intro n
    simp only [parseUintLoop]
    split_ifs with h1 h2 h3 h4
    · simp [intSize]
    · simp [intSize]
    · exact ih _
    · simp
    · simp

theorem ParseUint_err (bs : List Nat) :
    ((ParseUint bs).2 = some .ErrSyntax → (ParseUint bs).1 = 0) ∧
    ((ParseUint bs).2 = some .ErrRange → (ParseUint bs).1 = 2 ^ 64 - 1) := by
  simp only [ParseUint]
  split_ifs with h
  · simp
  · exact parseUintLoop_err bs 0

theorem ParseInt_err (bs : List Nat) :
    ((ParseInt bs).2 = some .ErrSyntax → (ParseInt bs).1 = 0) ∧
    ((ParseInt bs).2 = some .ErrRange →
      (ParseInt bs).1 =
        if bs.head? = some 45 then -9223372036854775808 else 9223372036854775807) := by
  simp only [ParseInt]
  split_ifs <;> simp_all [intSize]

theorem Atoi_err (bs : List Nat) :
    ((Atoi bs).2 = some .ErrSyntax → (Atoi bs).1 = 0) ∧
    ((Atoi bs).2 = some .ErrRange →
      (Atoi bs).1 =
        if bs.head? = some 45 then -9223372036854775808 else 9223372036854775807) := by
  simp only [Atoi]
  by_cases h1 : 0 < bs.length ∧ bs.length < 19
  · rw [if_pos h1]
    split_ifs
    all_goals first
      | (split <;> simp)
      | simp
  · rw [if_neg h1]; exact ParseInt_err bs

theorem utf8Bytes_head (c : Char) : (utf8Bytes c).head? = some 45 → c = '-' := by
  intro h
  have hc : c.toNat = 45 := by
    simp only [utf8Bytes] at h
    split_ifs at h <;> simp at h <;> omega
  have := Char.ofNat_toNat c
  rw [hc] at this
  exact this.symm

theorem goBytes_head (s : String) (h : s.data.head? ≠ some '-') :
    (goBytes s).head? ≠ some 45 := by
  intro hb
  apply h
  cases hs : s.data with
  | nil => simp [goBytes, hs] at hb
  | cons c cs =>
    have hne : utf8Bytes c ≠ [] := by
      simp only [utf8Bytes]; split_ifs <;> simp
    obtain ⟨b, bs, hbs⟩ := List.exists_cons_of_ne_nil hne
    have hb1 : (utf8Bytes c).head? = some 45 := by
      simp [goBytes, hs, hbs] at hb
      simp [hbs, hb]
    simp [utf8Bytes_head c hb1]

theorem goBytes_head_minus (s : String) (h : s.data.head? = some '-') :
    (goBytes s).head? = some 45 := by
  cases hs : s.data with
  | nil => simp [hs] at h
  | cons c cs =>
    have hc : c = '-' := by simpa [hs] using h
    subst hc
    simp [goBytes, hs, utf8Bytes]

theorem atoiFastLoop_digits (ds : List Nat) : ∀ n : Int,
    (∀ d ∈ ds, 48 ≤ d ∧ d ≤ 57) →
    atoiFastLoop ds n = some (ds.foldl (fun n d => n * 10 + ((d : Int) - 48)) n) := by
  induction ds with
  | nil => intro n _; rfl
  | cons d rest ih =>
    intro n h
    obtain ⟨h1, h2⟩ := h d (List.mem_cons_self _ _)
    have e : (d + 256 - 48) % 256 = d - 48 := by omega
    have hle : ¬ (d - 48 > 9) := by omega
    have ec : ((d - 48 : Nat) : Int) = (d : Int) - 48 := by omega
    simp only [atoiFastLoop, e, hle, if_false, List.foldl_cons, ec]
    exact ih _ (fun x hx => h x (List.mem_cons_of_mem _ hx))

theorem Atoi_digits (ds : List Nat) (hne : ds ≠ []) (hlen : ds.length < 19)
    (hd : ∀ d ∈ ds, 48 ≤ d ∧ d ≤ 57) : Atoi ds = (decimalValue ds, none) := by
  obtain ⟨d, rest, rfl⟩ := List.exists_cons_of_ne_nil hne
  obtain ⟨h1, h2⟩ := hd d (List.mem_cons_self _ _)
  have n45 : d ≠ 45 := by omega
  have n43 : d ≠ 43 := by omega
  have hl : 0 < (d :: rest).length ∧ (d :: rest).length < 19 := ⟨by simp, hlen⟩
  simp only [Atoi, hl, and_self, if_true, List.head?_cons, Option.some.injEq, n45, n43,
    or_self, if_false, false_and]
  rw [atoiFastLoop_digits _ 0 hd]
  rfl

/-- C10, as stated, fails for range errors: `strconv.Atoi` rejects the
non-empty text "99999999999999999999" with a range error and returns the
largest `int` with it, so `toInt` yields 9223372036854775807, not 0, and that
is what the field configured from it is set to; "-99999999999999999999" is
rejected likewise and yields the smallest `int`. -/
theorem toInt_range_error_not_zero :
    "99999999999999999999" ≠ "" ∧
    (Atoi (goBytes "99999999999999999999")).2 = some .ErrRange ∧
    toInt "99999999999999999999" = 9223372036854775807 ∧
    toInt "99999999999999999999" ≠ 0 ∧
    (configure [⟨"99999999999999999999", "", "", "", false⟩]).maxSizeMB =
      9223372036854775807 ∧
    (Atoi (goBytes "-99999999999999999999")).2 = some .ErrRange ∧
    toInt "-99999999999999999999" = -9223372036854775808 := by
  decide

/-- C10, amended: for every string `s` (in particular every non-empty one)
that `strconv.Atoi` rejects for syntax, `toInt s = 0`; for every `s` that it
rejects for range, `toInt s` is the `int` of largest magnitude of the sign of
`s`: -9223372036854775808 when `s` begins with a minus sign,
9223372036854775807 when it does not; and a non-empty `s` in a numeric field
of the configuration is accepted, the field being set to `toInt s`. -/
theorem toInt_of_malformed (s : String) :
    ((Atoi (goBytes s)).2 = some .ErrSyntax → toInt s = 0) ∧
    ((Atoi (goBytes s)).2 = some .ErrRange →
      (s.data.head? = some '-' → toInt s = -9223372036854775808) ∧
      (s.data.head? ≠ some '-' → toInt s = 9223372036854775807)) ∧
    (s ≠ "" → ∀ (c : Config) (rest : List Config),
      (c.MaxSizeMB = s → (configure (c :: rest)).maxSizeMB = toInt s) ∧
      (c.MaxBackups = s → (configure (c :: rest)).maxBackups = toInt s) ∧
      (c.MaxAge = s → (configure (c :: rest)).maxAge = toInt s)) := by
  refine ⟨(Atoi_err (goBytes s)).1, ?_, ?_⟩
  · intro hr
    have h := (Atoi_err (goBytes s)).2 hr
    refine ⟨?_, ?_⟩
    · intro hm
      rw [if_pos (goBytes_head_minus s hm)] at h
      exact h
    · intro hm
      rw [if_neg (goBytes_head s hm)] at h
      exact h
  · intro hne c rest
    obtain ⟨c1, c2, c3, -⟩ := configure_fields c rest
    refine ⟨?_, ?_, ?_⟩
    · intro h; rw [c1, h, if_neg hne]
    · intro h; rw [c2, h, if_neg hne]
    · intro h; rw [c3, h, if_neg hne]

/-- C10, amended, at concrete texts: "12x" is rejected for syntax and gives
0; "-99999999999999999999" is rejected for range and gives the smallest
`int`; "99999999999999999999" is rejected for range and gives the largest. -/
theorem toInt_of_malformed_witness :
    toInt "12x" = 0 ∧
    toInt "-99999999999999999999" = -9223372036854775808 ∧
    toInt "99999999999999999999" = 9223372036854775807 ∧
    (configure [⟨"", "", "12x", "", false⟩]).maxAge = toInt "12x" :=
  ⟨(toInt_of_malformed "12x").1 (by decide),
   ((toInt_of_malformed "-99999999999999999999").2.1 (by decide)).1 (by decide),
   ((toInt_of_malformed "99999999999999999999").2.1 (by decide)).2 (by decide),
   ((toInt_of_malformed "12x").2.2 (by decide) ⟨"", "", "12x", "", false⟩ []).2.2 rfl⟩

/-! ## Theorems: the sign of the numeric fields -/

theorem atoiFastLoop_nonneg (bs : List Nat) : ∀ (n m : Int), 0 ≤ n →
    atoiFastLoop bs n = some m → 0 ≤ m := by
  induction bs with
  | nil =>
    intro n m hn h
    simp only [atoiFastLoop] at h
    injection h with h; omega
  | cons ch rest ih =>
    intro n m hn h
    simp only [atoiFastLoop] at h
    split_ifs at h with hc
    exact ih _ m (by positivity) h

theorem Atoi_nonneg (bs : List Nat) (h : bs.head? ≠ some 45) : 0 ≤ (Atoi bs).1 := by
  simp only [Atoi, ParseInt, h, false_or, false_and, if_false, decide_False, Bool.not_false,
    true_and]
  split_ifs
  all_goals first
    | (split
       · simp
       · rename_i n hn
         exact atoiFastLoop_nonneg _ 0 n (le_refl 0) hn)
    | simp [intSize]

theorem toInt_nonneg (s : String) (h : s.data.head? ≠ some '-') : 0 ≤ toInt s :=
  Atoi_nonneg _ (goBytes_head s h)

/-- C11, as stated, fails: the text "-5" in `MaxSizeMB` is accepted and the
resulting logger has maxSizeMB = -5, also when it comes out of
`startLogger`. -/
theorem startLogger_negative_field :
    toInt "-5" = -5 ∧
    (configure [⟨"-5", "", "", "", false⟩]).maxSizeMB = -5 ∧
    (startLogger (fun _ => true) [⟨"-5", "", "", "", false⟩]).toOption.map
      (fun s => decide (0 ≤ s.logger.maxSizeMB)) = some false := by
  decide

/-- C11, amended: for every Config passed to `startLogger` whose MaxSizeMB,
MaxBackups and MaxAge texts do not begin with a minus sign (the empty text
included), whatever else they hold, maxSizeMB, maxBackups and maxAge of the
configured logger, and of the logger that results when `Start` succeeds, are
non-negative. -/
theorem startLogger_fields_nonneg (canOpen : String → Bool) (c : Config)
    (rest : List Config)
    (h1 : c.MaxSizeMB.data.head? ≠ some '-')
    (h2 : c.MaxBackups.data.head? ≠ some '-')
    (h3 : c.MaxAge.data.head? ≠ some '-') :
    (0 ≤ (configure (c :: rest)).maxSizeMB ∧ 0 ≤ (configure (c :: rest)).maxBackups ∧
      0 ≤ (configure (c :: rest)).maxAge) ∧
    (∀ s, startLogger canOpen (c :: rest) = .ok s →
      0 ≤ s.logger.maxSizeMB ∧ 0 ≤ s.logger.maxBackups ∧ 0 ≤ s.logger.maxAge) := by
  obtain ⟨c1, c2, c3, -⟩ := configure_fields c rest
  have k1 : 0 ≤ (configure (c :: rest)).maxSizeMB := by
    rw [c1]; split_ifs
    · decide
    · exact toInt_nonneg _ h1
  have k2 : 0 ≤ (configure (c :: rest)).maxBackups := by
    rw [c2]; split_ifs
    · decide
    · exact toInt_nonneg _ h2
  have k3 : 0 ≤ (configure (c :: rest)).maxAge := by
    rw [c3]; split_ifs
    · decide
    · exact toInt_nonneg _ h3
  refine ⟨⟨k1, k2, k3⟩, ?_⟩
  intro s hs
  obtain ⟨e1, e2, e3, -⟩ := Start_keeps_config canOpen _ s hs
  rw [e1, e2, e3]
  exact ⟨k1, k2, k3⟩

/-- C11, amended, at a configuration with a malformed, an oversized and an
empty numeric text: all three fields are non-negative. -/
theorem startLogger_fields_nonneg_witness :
    0 ≤ (configure [⟨"12x", "99999999999999999999", "", "", true⟩]).maxSizeMB ∧
    0 ≤ (configure [⟨"12x", "99999999999999999999", "", "", true⟩]).maxBackups ∧
    0 ≤ (configure [⟨"12x", "99999999999999999999", "", "", true⟩]).maxAge :=
  (startLogger_fields_nonneg (fun _ => false) ⟨"12x", "99999999999999999999", "", "", true⟩ []
    (by decide) (by decide) (by decide)).1

/-! ## Theorems: the factory -/

theorem GetLogger_done (canOpen : String → Bool) (f : Factory) (t : LoggerType)
    (c : List Config) (h : f.onceDone = true) :
    GetLogger canOpen f t c = (f, .ok (f.loggerInstance, f.initError)) := by
  simp [GetLogger, h]

theorem GetLogger_spec (canOpen : String → Bool) (f : Factory) (t : LoggerType)
    (c : List Config) :
    (GetLogger canOpen f t c).1.onceDone = true ∧
    (∀ v, (GetLogger canOpen f t c).2 = .ok v →
      v = ((GetLogger canOpen f t c).1.loggerInstance, (GetLogger canOpen f t c).1.initError)) ∧
    (f.onceDone = false → (GetLogger canOpen f t c).1.inits = f.inits + 1) := by
  by_cases hd : f.onceDone = true
  · rw [GetLogger_done canOpen f t c hd]
    refine ⟨hd, ?_, ?_⟩
    · intro v hv; injection hv with hv; exact hv.symm
    · intro h; rw [hd] at h; cases h
  · have hd1 : f.onceDone = false := by simpa using hd
    simp only [GetLogger, hd1]
    by_cases ht : t = Zap
    · cases hs : startLogger canOpen c with
      | error e => simp [ht, hs]
      | ok s => simp [ht, hs]
    · simp [ht]

theorem getLoggers_done (calls : List Call) : ∀ (f : Factory), f.onceDone = true →
    getLoggers f calls =
      (f, List.replicate calls.length (.ok (f.loggerInstance, f.initError))) := by
  induction calls with
  | nil => intro f _; rfl
  | cons c rest ih =>
    intro f h
    simp only [getLoggers, GetLogger_done c.canOpen f c.loggerType c.config h, ih f h,
      List.length_cons, List.replicate_succ]

/-- C12: for every sequence of calls of `GetLogger` with no `ResetLogger` in
between, whatever the state of the variables before: every call after the
first returns the instance and the error that the first call left in
`loggerInstance` and `initError`, which are what the first call returned when
it returned; the variables, and so the configuration of the instance, stay as
the first call left them; and when `once` was not done before the first call,
the function of `once.Do` has run exactly once at the end, whatever logger
types and Configs the later calls pass. -/
theorem GetLogger_initialises_once (f0 : Factory) (first : Call) (later : List Call) :
    (getLoggers f0 (first :: later)).1 =
      (GetLogger first.canOpen f0 first.loggerType first.config).1 ∧
    (getLoggers f0 (first :: later)).2 =
      (GetLogger first.canOpen f0 first.loggerType first.config).2 ::
        List.replicate later.length
          (.ok ((GetLogger first.canOpen f0 first.loggerType first.config).1.loggerInstance,
                (GetLogger first.canOpen f0 first.loggerType first.config).1.initError)) ∧
    (∀ v, (GetLogger first.canOpen f0 first.loggerType first.config).2 = .ok v →
      v = ((GetLogger first.canOpen f0 first.loggerType first.config).1.loggerInstance,
           (GetLogger first.canOpen f0 first.loggerType first.config).1.initError)) ∧
    (f0.onceDone = false → (getLoggers f0 (first :: later)).1.inits = f0.inits + 1) := by
  obtain ⟨hd, hv, hi⟩ := GetLogger_spec first.canOpen f0 first.loggerType first.config
  have hl := getLoggers_done later _ hd
  refine ⟨?_, ?_, hv, ?_⟩
  · simp only [getLoggers, hl]
  · simp only [getLoggers, hl]
  · intro h
    simp only [getLoggers, hl]
    exact hi h

/-- C12, at the calls of the test `TestCallGetLoggerMultipleTimes`: a first
call with only a log file, a second with sizes "1", "2", "3" and rotation on.
The second call returns what the first returned, and the instance keeps
rotation off and the sizes 10, 3 and 7. -/
theorem GetLogger_initialises_once_witness :
    ∃ s, (getLoggers Factory.initial
        [⟨fun _ => true, Zap, [⟨"", "", "", "/tmp/t/app.log", false⟩]⟩,
         ⟨fun _ => true, Zap, [⟨"1", "2", "3", "", true⟩]⟩]).2 =
        [.ok (.zap s, none), .ok (.zap s, none)] ∧
      s.logger.logRotationEnabled = false ∧ s.logger.maxSizeMB = 10 ∧
      s.logger.maxBackups = 3 ∧ s.logger.maxAge = 7 ∧
      (getLoggers Factory.initial
        [⟨fun _ => true, Zap, [⟨"", "", "", "/tmp/t/app.log", false⟩]⟩,
         ⟨fun _ => true, Zap, [⟨"1", "2", "3", "", true⟩]⟩]).1.inits = 1 := by
  have h := GetLogger_initialises_once Factory.initial
    ⟨fun _ => true, Zap, [⟨"", "", "", "/tmp/t/app.log", false⟩]⟩
    [⟨fun _ => true, Zap, [⟨"1", "2", "3", "", true⟩]⟩]
  obtain ⟨s, hs⟩ := (Start_ok_iff (fun _ => true)
    (configure [⟨"", "", "", "/tmp/t/app.log", false⟩])).mpr (Or.inr rfl)
  have hs1 : startLogger (fun _ => true) [⟨"", "", "", "/tmp/t/app.log", false⟩] = .ok s := hs
  have hg : GetLogger (fun _ => true) Factory.initial Zap
      [⟨"", "", "", "/tmp/t/app.log", false⟩] =
      (⟨true, .zap s, none, 1⟩, .ok (.zap s, none)) := by
    simp [GetLogger, Factory.initial, hs1]
  obtain ⟨e1, e2, e3, -, e5, -⟩ := Start_keeps_config _ _ s hs
  refine ⟨s, ?_, ?_, ?_, ?_, ?_, ?_⟩
  · rw [h.2.1]; simp [hg]
  · rw [e5]; decide
  · rw [e1]; decide
  · rw [e2]; decide
  · rw [e3]; decide
  · rw [h.2.2.2 rfl]; rfl

/-! ## Theorems: the fallback logger -/

theorem createLogLoop_tokens (formatV : GoValue → String) (args : List GoValue) :
    args.length % 2 = 0 → ∀ logMsg : String, ∃ tokens : List String,
      tokens.length = args.length / 2 ∧
      (∀ i, i < args.length / 2 → ∃ k v, args[2 * i]? = some k ∧ args[2 * i + 1]? = some v ∧
        tokens[i]? = some (" " ++ formatV k ++ "=" ++ formatV v)) ∧
      createLogLoop formatV args logMsg = logMsg ++ concatAll tokens := by
  refine pairInduction (fun args => args.length % 2 = 0 → ∀ logMsg : String,
    ∃ tokens : List String, tokens.length = args.length / 2 ∧
      (∀ i, i < args.length / 2 → ∃ k v, args[2 * i]? = some k ∧ args[2 * i + 1]? = some v ∧
        tokens[i]? = some (" " ++ formatV k ++ "=" ++ formatV v)) ∧
      createLogLoop formatV args logMsg = logMsg ++ concatAll tokens) ?_ ?_ ?_ args
  · intro _ logMsg
    exact ⟨[], rfl, fun i hi => by simp at hi, by simp [createLogLoop, concatAll]⟩
  · intro a h; simp at h
  · intro a b rest ih heven logMsg
    have hr : rest.length % 2 = 0 := by
      simp only [List.length_cons] at heven; omega
    obtain ⟨tokens, hlen, hidx, hloop⟩ :=
      ih hr (logMsg ++ (" " ++ formatV a ++ "=" ++ formatV b))
    refine ⟨(" " ++ formatV a ++ "=" ++ formatV b) :: tokens, ?_, ?_, ?_⟩
    · simp only [List.length_cons, hlen]; omega
    · intro i hi
      cases i with
      | zero => exact ⟨a, b, by simp, by simp, by simp⟩
      | succ j =>
        obtain ⟨k, v, h1, h2, h3⟩ := hidx j (by simp only [List.length_cons] at hi; omega)
        refine ⟨k, v, ?_, ?_, by simpa using h3⟩
        · have e : 2 * (j + 1) = 2 * j + 1 + 1 := by ring
          rw [e]; simpa using h1
        · have e : 2 * (j + 1) + 1 = 2 * j + 1 + 1 + 1 := by ring
          rw [e]; simpa using h2
    · simp only [createLogLoop, concatAll]
      rw [hloop, String.append_assoc]

/-- C13: for every message, level and argument list, `createLog` returns the
line that starts with `level=<level> time=<timestamp> msg=<quoted msg>`,
followed, when `len(args)` is odd, by the marker "[invalid key-value pairs]"
and nothing else, and, when `len(args)` is even, by `len(args)/2` tokens and
nothing else, the i-th token being " key=value" for the key `args[2i]` and
the value `args[2i+1]`, both rendered by `%v`. -/
theorem createLog_line (lib : GoLib) (formatV : GoValue → String)
    (timestamp msg level : String) (args : List GoValue) :
    (args.length % 2 = 1 →
      createLog lib formatV timestamp msg level args =
        "level=" ++ level ++ " time=" ++ timestamp ++ " msg=" ++ lib.quote msg ++
          "[invalid key-value pairs]") ∧
    (args.length % 2 = 0 → ∃ tokens : List String,
      tokens.length = args.length / 2 ∧
      (∀ i, i < args.length / 2 → ∃ k v, args[2 * i]? = some k ∧ args[2 * i + 1]? = some v ∧
        tokens[i]? = some (" " ++ formatV k ++ "=" ++ formatV v)) ∧
      createLog lib formatV timestamp msg level args =
        "level=" ++ level ++ " time=" ++ timestamp ++ " msg=" ++ lib.quote msg ++
          concatAll tokens) := by
  refine ⟨?_, ?_⟩
  · intro hodd
    simp [createLog, hodd]
  · intro heven
    obtain ⟨tokens, hlen, hidx, hloop⟩ := createLogLoop_tokens formatV args heven
      ("level=" ++ level ++ " time=" ++ timestamp ++ " msg=" ++ lib.quote msg)
    refine ⟨tokens, hlen, hidx, ?_⟩
    simp only [createLog, heven]
    simpa using hloop

/-- C13, at concrete calls: an odd argument list gives the marker after the
quoted message, an even one gives one token per pair in order. -/
theorem createLog_line_witness :
    createLog GoLib.ascii formatVPlain "2026-01-02T03:04:05Z" "disk full" "ERROR"
        [.str "path"] =
      "level=ERROR time=2026-01-02T03:04:05Z msg=\"disk full\"[invalid key-value pairs]" ∧
    createLog GoLib.ascii formatVPlain "2026-01-02T03:04:05Z" "disk full" "ERROR"
        [.str "path", .str "/var", .str "free", .int 0] =
      "level=ERROR time=2026-01-02T03:04:05Z msg=\"disk full\" path=/var free=0" := by
  refine ⟨?_, by decide⟩
  rw [(createLog_line GoLib.ascii formatVPlain "2026-01-02T03:04:05Z" "disk full" "ERROR"
    [.str "path"]).1 (by decide)]
  decide

end Logger
